import Mathlib

/-!
OSRM extractor core: raster sources and the parser driver.

A shallow embedding of `data_structures/raster_source.cpp` and of the per-buffer
loop and the thread count of `Extractor/Extractor.cpp`, with the properties of the
specification stated over it.

Conventions of the embedding.

* A `float` is an IEEE binary32 value and a `double` an IEEE binary64 value: a
  rational number, an infinity or NaN (`Fp`).  Every floating operation of the source
  is one operation of the embedding, carried out in the type the operands have in
  C++ and rounded once, to nearest with ties to even.  The two rounding functions
  are the fields of an `Arithmetic`; each function of the source is first given for
  an arbitrary arithmetic (name ending in `In`) and then, under the name it has in
  the source, for `ieee`.  `Arithmetic.Exact` says that nothing is ever rounded.
* The conversions of floating values to `unsigned`, `int` and `short` truncate
  toward zero and are undefined outside the range of the target type.
* A call either returns a value, throws `osrm::exception`, trips a
  `BOOST_ASSERT`, or runs into undefined behaviour (an index past the end of a
  vector, a conversion out of range).  `Outcome` keeps the four apart.
* Sizes of in-memory vectors are natural numbers.  The caller-chosen
  `unsigned int source_id` is a 32-bit value and `source_id + 1` wraps.
* The two process-wide globals `LoadedSources` and `LoadedSourcePaths` are the
  fields of an explicit `Registry` that is passed in and handed back.
* A file is given by the rows `loadRasterSource` extracts from it: one list of
  integers per line, holding what `ss >> datum` yields on that line.
* Bounds and query points are finite: the `double` bounds and the `float`
  coordinates of the members are rational numbers.
-/

namespace Osrm

/-! ## Outcomes -/

/-- The ways a call of the source can end. -/
inductive Outcome (α : Type) where
  /-- normal return -/
  | ok (value : α)
  /-- an `osrm::exception` with the given message was thrown -/
  | exception (what : String)
  /-- a `BOOST_ASSERT` did not hold -/
  | assertion
  /-- undefined behaviour: out-of-range index or conversion -/
  | undefined
  deriving DecidableEq, Repr

namespace Outcome

/-- Sequencing: the first failure ends the computation. -/
def bind {α β : Type} (o : Outcome α) (f : α → Outcome β) : Outcome β :=
  match o with
  | ok a => f a
  | exception w => exception w
  | assertion => assertion
  | undefined => undefined

/-- The call returned normally. -/
def isOk {α : Type} : Outcome α → Bool
  | ok _ => true
  | _ => false

end Outcome

/-! ## Floating values -/

/-- A value of a floating type: a finite number, an infinity or NaN.  The sign of a zero is
not kept: the only divisors in the source are the element count and the two steps, and a
quotient by a zero step is converted to `unsigned` at once, which is undefined for either
infinity and for NaN. -/
inductive Fp where
  | fin (value : ℚ)
  | inf (negative : Bool)
  | nan
  deriving DecidableEq, Repr

/-- Numerals denote finite values. -/
instance (n : Nat) : OfNat Fp n := ⟨.fin n⟩

/-- The number a finite value stands for, and 0 for the others.  Used where the rules of the
specification, which know finite numbers only, are applied to a stored step. -/
def Fp.toRat : Fp → ℚ
  | .fin q => q
  | _ => 0

instance : Coe Fp ℚ := ⟨Fp.toRat⟩

/-- The power `2 ^ e` for an integer exponent. -/
def pow2 (e : Int) : ℚ :=
  if 0 ≤ e then ((2 ^ e.toNat : Nat) : ℚ) else 1 / ((2 ^ (-e).toNat : Nat) : ℚ)

/-- The number of binary digits of `n`, by halving; `fuel` bounds the number of steps. -/
def bitLength : Nat → Nat → Nat
  | 0, _ => 0
  | fuel + 1, n => if n = 0 then 0 else bitLength fuel (n / 2) + 1

/-- The binary exponent of a nonzero `q`: the `e` with `2 ^ e ≤ |q| < 2 ^ (e + 1)`. -/
def ilog2 (q : ℚ) : Int :=
  let e0 : Int := (bitLength q.num.natAbs q.num.natAbs : Int) - (bitLength q.den q.den : Int)
  if pow2 e0 ≤ |q| then e0 else e0 - 1

/-- The integer nearest to `x`, the even one of the two when `x` lies halfway. -/
def roundEven (x : ℚ) : Int :=
  if x - ⌊x⌋ < 1 / 2 then ⌊x⌋
  else if x - ⌊x⌋ > 1 / 2 then ⌊x⌋ + 1
  else if ⌊x⌋ % 2 = 0 then ⌊x⌋ else ⌊x⌋ + 1

/-- A binary floating format: digits of the significand, least and greatest exponent of a
normal number. -/
structure Format where
  prec : Nat
  emin : Int
  emax : Int

/-- The format of `float`. -/
def binary32 : Format := { prec := 24, emin := -126, emax := 127 }

/-- The format of `double`. -/
def binary64 : Format := { prec := 53, emin := -1022, emax := 1023 }

/-- Rounding of a real result into a format, to nearest with ties to even: the result is a
multiple of the unit in the last place of its binade (of the least binade for subnormal
numbers), and an infinity when that multiple is beyond the greatest finite value. -/
def Format.round (F : Format) (q : ℚ) : Fp :=
  if q = 0 then .fin 0
  else
    let ulp : ℚ := pow2 (max (ilog2 q) F.emin - (F.prec - 1))
    let r : ℚ := (roundEven (q / ulp) : ℚ) * ulp
    if pow2 (F.emax + 1) ≤ |r| then .inf (decide (q < 0)) else .fin r

/-- How real results are stored: in a `float` and in a `double`. -/
structure Arithmetic where
  toFloat : ℚ → Fp
  toDouble : ℚ → Fp

/-- The arithmetic of the machine: IEEE binary32 and binary64, round to nearest even. -/
def ieee : Arithmetic :=
  { toFloat := binary32.round, toDouble := binary64.round }

/-- The arithmetic of the real numbers: every result is stored as it is. -/
def exactArithmetic : Arithmetic :=
  { toFloat := Fp.fin, toDouble := Fp.fin }

/-- Nothing is rounded and nothing overflows. -/
def Arithmetic.Exact (A : Arithmetic) : Prop :=
  ∀ q : ℚ, A.toFloat q = .fin q ∧ A.toDouble q = .fin q

namespace Fp

/-- Negation. -/
def neg : Fp → Fp
  | fin a => fin (-a)
  | inf s => inf (!s)
  | nan => nan

/-- Addition, the finite sum stored by `rnd`. -/
def add (rnd : ℚ → Fp) : Fp → Fp → Fp
  | fin a, fin b => rnd (a + b)
  | nan, _ => nan
  | _, nan => nan
  | inf s, inf t => if s = t then inf s else nan
  | inf s, fin _ => inf s
  | fin _, inf t => inf t

/-- Subtraction, the finite difference stored by `rnd`. -/
def sub (rnd : ℚ → Fp) (a b : Fp) : Fp :=
  add rnd a (neg b)

/-- Multiplication, the finite product stored by `rnd`. -/
def mul (rnd : ℚ → Fp) : Fp → Fp → Fp
  | fin a, fin b => rnd (a * b)
  | nan, _ => nan
  | _, nan => nan
  | inf s, inf t => inf (s != t)
  | inf s, fin b => if b = 0 then nan else inf (s != decide (b < 0))
  | fin a, inf t => if a = 0 then nan else inf (t != decide (a < 0))

/-- Division, the finite quotient stored by `rnd`.  A finite value divided by an infinity is
zero; a quotient by zero is an infinity, or NaN for `0 / 0`. -/
def div (rnd : ℚ → Fp) : Fp → Fp → Fp
  | fin a, fin b =>
    if b = 0 then (if a = 0 then nan else inf (decide (a < 0))) else rnd (a / b)
  | nan, _ => nan
  | _, nan => nan
  | inf _, inf _ => nan
  | inf s, fin b => inf (s != decide (b < 0))
  | fin _, inf _ => fin 0

/-- Conversion to a narrower type: a finite value is stored by `rnd`. -/
def store (rnd : ℚ → Fp) : Fp → Fp
  | fin a => rnd a
  | inf s => inf s
  | nan => nan

/-- Comparison `a < b`; false when either side is NaN. -/
def lt : Fp → Fp → Bool
  | fin a, fin b => decide (a < b)
  | nan, _ => false
  | _, nan => false
  | inf s, inf t => s && !t
  | inf s, fin _ => s
  | fin _, inf t => !t

end Fp

/-! ## Conversions of floating values to integers -/

/-- Truncation toward zero, the rounding of every floating-to-integer conversion. -/
def truncate (q : ℚ) : Int :=
  if q < 0 then ⌈q⌉ else ⌊q⌋

/-- Conversion `unsigned u = q;` of a finite floating value: the truncated value, undefined
when it does not fit 32 unsigned bits. -/
def toUnsigned (q : ℚ) : Outcome Nat :=
  if 0 ≤ truncate q ∧ truncate q < 4294967296 then .ok (truncate q).toNat else .undefined

/-- Conversion `int i = q;` of a finite floating value. -/
def toInt (q : ℚ) : Outcome Int :=
  if -2147483648 ≤ truncate q ∧ truncate q < 2147483648 then .ok (truncate q) else .undefined

/-- Conversion `static_cast<short>(q)` of a finite floating value. -/
def toShort (q : ℚ) : Outcome Int :=
  if -32768 ≤ truncate q ∧ truncate q < 32768 then .ok (truncate q) else .undefined

/-- Conversion to `unsigned` of a floating value; undefined for an infinity and for NaN. -/
def Fp.toUnsigned : Fp → Outcome Nat
  | .fin q => Osrm.toUnsigned q
  | _ => .undefined

/-- Conversion to `int` of a floating value; undefined for an infinity and for NaN. -/
def Fp.toInt : Fp → Outcome Int
  | .fin q => Osrm.toInt q
  | _ => .undefined

/-- Conversion to `short` of a floating value; undefined for an infinity and for NaN. -/
def Fp.toShort : Fp → Outcome Int
  | .fin q => Osrm.toShort q
  | _ => .undefined

/-! ## Raster data -/

/-- Modelled from the spec: the members of `struct RasterDatum`, declared in
`raster_source.hpp`, which is not among the sources; the names are those the two
constructors initialise.  `RasterDatum(bool)` leaves `datum` unset, `RasterDatum(short)` sets
`has_data`. -/
structure RasterDatum where
  has_data : Bool
  datum : Option Int
  deriving DecidableEq, Repr

/-- Constructor `RasterDatum::RasterDatum(bool has_data)`. -/
def RasterDatum.ofBool (has_data : Bool) : RasterDatum :=
  { has_data := has_data, datum := none }

/-- Constructor `RasterDatum::RasterDatum(short datum)`. -/
def RasterDatum.ofShort (datum : Int) : RasterDatum :=
  { has_data := true, datum := some datum }

/-- Modelled from the spec: the members of `class RasterSource`, declared in
`raster_source.hpp`, which is not among the sources; the names are those of the
constructor's initialiser list.  The two steps are `float`, the type `calcSize` returns, and
may be infinite; the four bounds are `double`, the type of the constructor's parameters.  The
grid holds 16-bit data, row by row. -/
structure RasterSource where
  xstep : Fp
  ystep : Fp
  raster_data : List (List Int)
  xmin : ℚ
  xmax : ℚ
  ymin : ℚ
  ymax : ℚ
  deriving DecidableEq, Repr

/-- Member `RasterSource::calcSize` in a given arithmetic: `max - min` and the quotient by
`count` are `double` operations, and the `return` stores the quotient in a `float`. -/
def calcSizeIn (A : Arithmetic) (min max : ℚ) (count : Nat) : Outcome Fp :=
  if count > 0 then
    .ok (Fp.store A.toFloat
      (Fp.div A.toDouble (Fp.sub A.toDouble (.fin max) (.fin min)) (.fin count)))
  else .assertion

/-- Member `RasterSource::calcSize`. -/
def calcSize (min max : ℚ) (count : Nat) : Outcome Fp :=
  calcSizeIn ieee min max count

/-- Constructor `RasterSource::RasterSource` in a given arithmetic: the steps come from the
length of the first row and from the number of rows, and both must differ from zero. -/
def RasterSource.constructIn (A : Arithmetic) (_raster_data : List (List Int))
    (_xmin _xmax _ymin _ymax : ℚ) : Outcome RasterSource :=
  match _raster_data with
  | [] => .undefined
  | row0 :: _ =>
    (calcSizeIn A _xmin _xmax row0.length).bind fun xstep =>
    (calcSizeIn A _ymin _ymax _raster_data.length).bind fun ystep =>
    if xstep = .fin 0 then .assertion
    else if ystep = .fin 0 then .assertion
    else .ok { xstep := xstep, ystep := ystep, raster_data := _raster_data,
               xmin := _xmin, xmax := _xmax, ymin := _ymin, ymax := _ymax }

/-- Constructor `RasterSource::RasterSource`. -/
def RasterSource.construct (_raster_data : List (List Int)) (_xmin _xmax _ymin _ymax : ℚ) :
    Outcome RasterSource :=
  RasterSource.constructIn ieee _raster_data _xmin _xmax _ymin _ymax

/-- Element access `raster_data[row][col]` with `int` indices; undefined past either end. -/
def cellAt (raster_data : List (List Int)) (row col : Int) : Outcome Int :=
  if 0 ≤ row ∧ 0 ≤ col then
    match raster_data[row.toNat]? with
    | none => .undefined
    | some cells =>
      match cells[col.toNat]? with
      | none => .undefined
      | some d => .ok d
  else .undefined

/-- A query together with the grid cells it indexed, as `(row, column)` pairs. -/
structure Query where
  reads : List (Int × Int)
  result : Outcome RasterDatum
  deriving DecidableEq, Repr

/-- The test that opens both queries: the point lies outside the bounds.  The `float`
coordinate is compared with the `double` bound as a `double`, without rounding. -/
def RasterSource.outside (s : RasterSource) (lon lat : ℚ) : Prop :=
  lon < s.xmin ∨ lon > s.xmax ∨ lat < s.ymin ∨ lat > s.ymax

instance (s : RasterSource) (lon lat : ℚ) : Decidable (s.outside lon lat) := by
  unfold RasterSource.outside; infer_instance

/-- The initialiser `(lon - xmin) / xstep` of `xthP`, and with `ymax - lat` and `ystep` that
of `ythP`: a `double` difference, a `double` quotient, and the conversion to `unsigned`. -/
def fractionalIndexIn (A : Arithmetic) (minuend subtrahend : ℚ) (step : Fp) : Outcome Nat :=
  (Fp.div A.toDouble (Fp.sub A.toDouble (.fin minuend) (.fin subtrahend)) step).toUnsigned

/-- The expression `(P - floor(P)) > (step / 2) ? floor(P) : ceil(P)` of `getRasterData`,
where `P` is already an `unsigned`: the difference is a `double`, `step / 2` a `float`, and
the value of the expression a `double`. -/
def nearestIndexIn (A : Arithmetic) (thP : Nat) (step : Fp) : Fp :=
  if Fp.lt (Fp.div A.toFloat step (.fin 2))
      (Fp.sub A.toDouble (.fin (thP : ℚ)) (.fin (⌊(thP : ℚ)⌋ : ℚ))) then
    .fin (⌊(thP : ℚ)⌋ : ℚ)
  else .fin (⌈(thP : ℚ)⌉ : ℚ)

/-- The indices `(yth, xth)` that `getRasterData` computes for a point inside the bounds. -/
def RasterSource.nearestCellIn (A : Arithmetic) (s : RasterSource) (lon lat : ℚ) :
    Outcome (Int × Int) :=
  (fractionalIndexIn A lon s.xmin s.xstep).bind fun xthP =>
  (nearestIndexIn A xthP s.xstep).toInt.bind fun xth =>
  (fractionalIndexIn A s.ymax lat s.ystep).bind fun ythP =>
  (nearestIndexIn A ythP s.ystep).toInt.bind fun yth =>
  .ok (yth, xth)

/-- Member `RasterSource::getRasterData` in a given arithmetic. -/
def RasterSource.getRasterDataIn (A : Arithmetic) (s : RasterSource) (lon lat : ℚ) : Query :=
  if s.outside lon lat then
    { reads := [], result := .ok (RasterDatum.ofBool false) }
  else
    match s.nearestCellIn A lon lat with
    | .ok (yth, xth) =>
      { reads := [(yth, xth)],
        result := (cellAt s.raster_data yth xth).bind fun d => .ok (RasterDatum.ofShort d) }
    | .exception w => { reads := [], result := .exception w }
    | .assertion => { reads := [], result := .assertion }
    | .undefined => { reads := [], result := .undefined }

/-- Member `RasterSource::getRasterData`: query for the nearest data point. -/
def RasterSource.getRasterData (s : RasterSource) (lon lat : ℚ) : Query :=
  s.getRasterDataIn ieee lon lat

/-- The four `int` locals of `getRasterInterpolate`. -/
structure CornerIndices where
  top : Int
  bottom : Int
  left : Int
  right : Int
  deriving DecidableEq, Repr

/-- Lines 101 to 106 of `getRasterInterpolate`: floor and ceiling of the two `unsigned`
indices, each a `double` converted to `int`. -/
def RasterSource.cornerIndicesIn (A : Arithmetic) (s : RasterSource) (lon lat : ℚ) :
    Outcome CornerIndices :=
  (fractionalIndexIn A lon s.xmin s.xstep).bind fun xthP =>
  (fractionalIndexIn A s.ymax lat s.ystep).bind fun ythP =>
  (toInt (⌊(ythP : ℚ)⌋ : ℚ)).bind fun top =>
  (toInt (⌈(ythP : ℚ)⌉ : ℚ)).bind fun bottom =>
  (toInt (⌊(xthP : ℚ)⌋ : ℚ)).bind fun left =>
  (toInt (⌈(xthP : ℚ)⌉ : ℚ)).bind fun right =>
  .ok { top := top, bottom := bottom, left := left, right := right }

/-- Line 108, `float x = (lon - left * xstep + xmin) / xstep;`: `left` becomes a `float`, the
product and the difference are `float` operations, the sum with the `double` `xmin` and the
quotient are `double` operations, and the result is stored in a `float`. -/
def RasterSource.weightXIn (A : Arithmetic) (s : RasterSource) (lon : ℚ) (left : Int) : Fp :=
  Fp.store A.toFloat
    (Fp.div A.toDouble
      (Fp.add A.toDouble
        (Fp.sub A.toFloat (.fin lon) (Fp.mul A.toFloat (A.toFloat left) s.xstep))
        (.fin s.xmin))
      s.xstep)

/-- Line 109, `float y = (ymax - top * ystep - lat) / ystep;`: the product is a `float`
operation, the two differences and the quotient are `double` operations, and the result is
stored in a `float`. -/
def RasterSource.weightYIn (A : Arithmetic) (s : RasterSource) (lat : ℚ) (top : Int) : Fp :=
  Fp.store A.toFloat
    (Fp.div A.toDouble
      (Fp.sub A.toDouble
        (Fp.sub A.toDouble (.fin s.ymax) (Fp.mul A.toFloat (A.toFloat top) s.ystep))
        (.fin lat))
      s.ystep)

/-- Lines 110 and 111, `float x1 = 1.0 - x;`: a `double` difference stored in a `float`. -/
def complementIn (A : Arithmetic) (x : Fp) : Fp :=
  Fp.store A.toFloat (Fp.sub A.toDouble (.fin 1) x)

/-- One summand `raster_data[r][c] * (u * v)` of the returned expression: the datum becomes
a `float` and both products are `float` operations. -/
def summandIn (A : Arithmetic) (datum : Int) (u v : Fp) : Fp :=
  Fp.mul A.toFloat (A.toFloat datum) (Fp.mul A.toFloat u v)

/-- The expression of lines 114 and 115: four summands added from left to right as `float`
values. -/
def weightedSumIn (A : Arithmetic) (tl tr bl br : Int) (x y : Fp) : Fp :=
  Fp.add A.toFloat
    (Fp.add A.toFloat
      (Fp.add A.toFloat
        (summandIn A tl (complementIn A x) (complementIn A y))
        (summandIn A tr x (complementIn A y)))
      (summandIn A bl (complementIn A x) y))
    (summandIn A br x y)

/-- Member `RasterSource::getRasterInterpolate` in a given arithmetic. -/
def RasterSource.getRasterInterpolateIn (A : Arithmetic) (s : RasterSource) (lon lat : ℚ) :
    Query :=
  if s.outside lon lat then
    { reads := [], result := .ok (RasterDatum.ofBool false) }
  else
    match s.cornerIndicesIn A lon lat with
    | .ok c =>
      { reads := [(c.top, c.left), (c.top, c.right), (c.bottom, c.left), (c.bottom, c.right)],
        result :=
          (cellAt s.raster_data c.top c.left).bind fun tl =>
          (cellAt s.raster_data c.top c.right).bind fun tr =>
          (cellAt s.raster_data c.bottom c.left).bind fun bl =>
          (cellAt s.raster_data c.bottom c.right).bind fun br =>
          (weightedSumIn A tl tr bl br (s.weightXIn A lon c.left)
            (s.weightYIn A lat c.top)).toShort.bind
            fun d => .ok (RasterDatum.ofShort d) }
    | .exception w => { reads := [], result := .exception w }
    | .assertion => { reads := [], result := .assertion }
    | .undefined => { reads := [], result := .undefined }

/-- Member `RasterSource::getRasterInterpolate`: query using bilinear interpolation. -/
def RasterSource.getRasterInterpolate (s : RasterSource) (lon lat : ℚ) : Query :=
  s.getRasterInterpolateIn ieee lon lat

/-- The locals of `getRasterInterpolate` once the point is known to be inside the bounds and
both weights are finite. -/
structure Corners where
  top : Int
  bottom : Int
  left : Int
  right : Int
  x : ℚ
  y : ℚ
  deriving DecidableEq, Repr

/-- The four corner indices and the two weights of `getRasterInterpolate` in a given
arithmetic, for reference in the statements.  Infinite or NaN weights have no place in
`Corners`; the query itself carries them on into the sum. -/
def RasterSource.cornersIn (A : Arithmetic) (s : RasterSource) (lon lat : ℚ) :
    Outcome Corners :=
  (s.cornerIndicesIn A lon lat).bind fun c =>
  match s.weightXIn A lon c.left, s.weightYIn A lat c.top with
  | .fin x, .fin y =>
    .ok { top := c.top, bottom := c.bottom, left := c.left, right := c.right, x := x, y := y }
  | _, _ => .undefined

/-- The four corner indices and the two weights that `getRasterInterpolate` computes. -/
def RasterSource.corners (s : RasterSource) (lon lat : ℚ) : Outcome Corners :=
  s.cornersIn ieee lon lat

/-- A read `(row, column)` hits an existing cell of the grid: the row index is below the
number of rows and the column index below the length of that row. -/
def cellExists (raster_data : List (List Int)) (rc : Int × Int) : Prop :=
  0 ≤ rc.1 ∧ rc.1 < raster_data.length ∧
    0 ≤ rc.2 ∧ rc.2 < (raster_data.getD rc.1.toNat []).length

instance (raster_data : List (List Int)) (rc : Int × Int) :
    Decidable (cellExists raster_data rc) := by
  unfold cellExists; infer_instance

/-! ## The registry of loaded sources -/

/-- The globals `LoadedSources` and `LoadedSourcePaths`. -/
structure Registry where
  LoadedSources : List RasterSource
  LoadedSourcePaths : List (String × Int)
  deriving DecidableEq, Repr

/-- The registry at program start. -/
def Registry.empty : Registry :=
  { LoadedSources := [], LoadedSourcePaths := [] }

/-- Lookup `LoadedSourcePaths.find(source_path)`. -/
def Registry.find (reg : Registry) (source_path : String) : Option Int :=
  reg.LoadedSourcePaths.lookup source_path

/-- Insertion `std::unordered_map::emplace`: a key that is present keeps its value. -/
def emplace (m : List (String × Int)) (key : String) (value : Int) : List (String × Int) :=
  match m.lookup key with
  | some _ => m
  | none => (key, value) :: m

/-- What the file system holds at a path: nothing, or the rows that the reading loop of
`loadRasterSource` extracts, one per line. -/
abbrev FileSystem := String → Option (List (List Int))

/-- A call of `loadRasterSource`: how it ended and the registry it left. -/
structure Loaded where
  result : Outcome Int
  registry : Registry
  deriving DecidableEq, Repr

/-- Function `loadRasterSource` in a given arithmetic. -/
def loadRasterSourceIn (A : Arithmetic) (fs : FileSystem) (reg : Registry)
    (source_path : String) (xmin xmax ymin ymax : ℚ) : Loaded :=
  match reg.find source_path with
  | some id => { result := .ok id, registry := reg }
  | none =>
    let source_id : Int := reg.LoadedSources.length
    match fs source_path with
    | none => { result := .exception "error reading: no such path", registry := reg }
    | some rasterData =>
      match RasterSource.constructIn A rasterData xmin xmax ymin ymax with
      | .ok source =>
        { result := .ok source_id,
          registry :=
            { LoadedSourcePaths := emplace reg.LoadedSourcePaths source_path source_id,
              LoadedSources := reg.LoadedSources ++ [source] } }
      | .exception w => { result := .exception w, registry := reg }
      | .assertion => { result := .assertion, registry := reg }
      | .undefined => { result := .undefined, registry := reg }

/-- Function `loadRasterSource`: load raster source into memory. -/
def loadRasterSource (fs : FileSystem) (reg : Registry) (source_path : String)
    (xmin xmax ymin ymax : ℚ) : Loaded :=
  loadRasterSourceIn ieee fs reg source_path xmin xmax ymin ymax

/-- Modelled from the spec: the constant `COORDINATE_PRECISION` of `osrm/coordinate.hpp`,
a header that is not among the sources.  The spec gives the factor between degrees and the
integer coordinates as `1e6`; the constant is taken to be a `float`. -/
def COORDINATE_PRECISION : ℚ := 1000000

/-- The argument `float(lon) / COORDINATE_PRECISION` of both lookup functions: the `int`
is stored in a `float` and the quotient is a `float` operation.  (Were the constant a
`double`, the quotient would be formed as a `double` and stored in the `float` parameter of
the member, which gives the same `float`.) -/
def coordinateIn (A : Arithmetic) (v : Int) : Fp :=
  Fp.div A.toFloat (A.toFloat v) (.fin COORDINATE_PRECISION)

/-- A member query called with two `float` arguments.  For finite arguments it is the
member itself.  An infinite or NaN argument cannot come from an `int`; for it the bounds
test is made on the floating values, and a point that passes it has a NaN coordinate, whose
index is NaN and whose conversion to `unsigned` is undefined. -/
def RasterSource.queryAt (s : RasterSource) (member : ℚ → ℚ → Query) (lon lat : Fp) : Query :=
  match lon, lat with
  | .fin x, .fin y => member x y
  | _, _ =>
    if Fp.lt lon (.fin s.xmin) || Fp.lt (.fin s.xmax) lon ||
        Fp.lt lat (.fin s.ymin) || Fp.lt (.fin s.ymax) lat then
      { reads := [], result := .ok (RasterDatum.ofBool false) }
    else { reads := [], result := .undefined }

/-- The guard `LoadedSources.size() < source_id + 1` of both lookup functions; the sum is
formed in 32 unsigned bits. -/
def noSuchLoadedSource (reg : Registry) (source_id : Nat) : Prop :=
  reg.LoadedSources.length < (source_id + 1) % 4294967296

instance (reg : Registry) (source_id : Nat) : Decidable (noSuchLoadedSource reg source_id) := by
  unfold noSuchLoadedSource; infer_instance

/-- Function `getRasterDataFromSource` in a given arithmetic. -/
def getRasterDataFromSourceIn (A : Arithmetic) (reg : Registry) (source_id : Nat)
    (lon lat : Int) : Query :=
  if noSuchLoadedSource reg source_id then
    { reads := [], result := .exception "error reading: no such loaded source" }
  else
    match reg.LoadedSources[source_id]? with
    | none => { reads := [], result := .undefined }
    | some found =>
      found.queryAt (found.getRasterDataIn A) (coordinateIn A lon) (coordinateIn A lat)

/-- Function `getRasterDataFromSource`: nearest data point from a specified source. -/
def getRasterDataFromSource (reg : Registry) (source_id : Nat) (lon lat : Int) : Query :=
  getRasterDataFromSourceIn ieee reg source_id lon lat

/-- Function `getRasterInterpolateFromSource` in a given arithmetic. -/
def getRasterInterpolateFromSourceIn (A : Arithmetic) (reg : Registry) (source_id : Nat)
    (lon lat : Int) : Query :=
  if noSuchLoadedSource reg source_id then
    { reads := [], result := .exception "error reading: no such loaded source" }
  else
    match reg.LoadedSources[source_id]? with
    | none => { reads := [], result := .undefined }
    | some found =>
      found.queryAt (found.getRasterInterpolateIn A) (coordinateIn A lon) (coordinateIn A lat)

/-- Function `getRasterInterpolateFromSource`: interpolated data from a specified source. -/
def getRasterInterpolateFromSource (reg : Registry) (source_id : Nat) (lon lat : Int) : Query :=
  getRasterInterpolateFromSourceIn ieee reg source_id lon lat

/-! ## The parser driver: one buffer of `Extractor::Run` -/

/-- The cases the `switch (entity->type())` of the worker body tells apart; `other` stands
for every `osmium::item_type` that reaches `default:`. -/
inductive item_type where
  | node
  | way
  | relation
  | other
  deriving DecidableEq, Repr

/-- What the worker body asks of the outside: the type tag of an entity and the two profile
functions that are called, each filling a freshly cleared result. -/
structure ScriptingEnvironment (Entity ExtractionNode ExtractionWay : Type) where
  type : Entity → item_type
  node_function : Entity → ExtractionNode
  way_function : Entity → ExtractionWay

/-- The three staging vectors and the four counters the worker body writes. -/
structure Staging (ExtractionNode ExtractionWay InputRestrictionContainer : Type) where
  resulting_nodes : List (Nat × ExtractionNode)
  resulting_ways : List (Nat × ExtractionWay)
  resulting_restrictions : List (Option InputRestrictionContainer)
  number_of_nodes : Nat
  number_of_ways : Nat
  number_of_relations : Nat
  number_of_others : Nat
  deriving DecidableEq, Repr

/-- The state before the first buffer: empty vectors, counters at zero. -/
def Staging.initial {N W R : Type} : Staging N W R :=
  { resulting_nodes := [], resulting_ways := [], resulting_restrictions := [],
    number_of_nodes := 0, number_of_ways := 0, number_of_relations := 0,
    number_of_others := 0 }

/-- The three `clear()` calls that open the work on a buffer; the counters stay. -/
def Staging.clear {N W R : Type} (st : Staging N W R) : Staging N W R :=
  { st with resulting_nodes := [], resulting_ways := [], resulting_restrictions := [] }

/-- One round of the loop body of the `parallel_for` lambda, for index `x` of `elements`.
The counters are `unsigned`.  A relation only counts: no evaluator is called for it and
nothing is staged. -/
def parseEntity {E N W R : Type} (env : ScriptingEnvironment E N W) (elements : List E)
    (st : Staging N W R) (x : Nat) : Staging N W R :=
  match elements[x]? with
  | none => st
  | some entity =>
    match env.type entity with
    | .node =>
      { st with number_of_nodes := (st.number_of_nodes + 1) % 4294967296,
                resulting_nodes := st.resulting_nodes ++ [(x, env.node_function entity)] }
    | .way =>
      { st with number_of_ways := (st.number_of_ways + 1) % 4294967296,
                resulting_ways := st.resulting_ways ++ [(x, env.way_function entity)] }
    | .relation =>
      { st with number_of_relations := (st.number_of_relations + 1) % 4294967296 }
    | .other =>
      { st with number_of_others := (st.number_of_others + 1) % 4294967296 }

/-- The `tbb::parallel_for` over `[0, elements.size())`.  The workers run the body once per
index and each `emplace_back` takes effect at one instant, so the staged vectors end up as
if the indices had been handled one after the other in some order: `schedule` is that
order, a rearrangement of `0, 1, ..., n-1`. -/
def parallel_for {E N W R : Type} (env : ScriptingEnvironment E N W) (elements : List E)
    (schedule : List Nat) (st : Staging N W R) : Staging N W R :=
  schedule.foldl (parseEntity env elements) st

/-- A call on `extractor_callbacks`.  The element handed to `ProcessNode` and `ProcessWay`
is `elements[result.first]`, named here by that index. -/
inductive Call (N W R : Type) where
  | ProcessNode (element : Nat) (result : N)
  | ProcessWay (element : Nat) (result : W)
  | ProcessRestriction (restriction : Option R)
  deriving DecidableEq, Repr

/-- The three loops that put the parsed objects through the extractor callbacks. -/
def forward {N W R : Type} (st : Staging N W R) : List (Call N W R) :=
  st.resulting_nodes.map (fun result => Call.ProcessNode result.1 result.2) ++
    (st.resulting_ways.map (fun result => Call.ProcessWay result.1 result.2) ++
      st.resulting_restrictions.map (fun result => Call.ProcessRestriction result))

/-- The body of the `while (buffer = reader.read())` loop for one buffer: clear, fan out,
forward.  Returns the callback calls in the order they are issued, and the state the next
buffer starts from. -/
def processBuffer {E N W R : Type} (env : ScriptingEnvironment E N W) (elements : List E)
    (schedule : List Nat) (st : Staging N W R) : List (Call N W R) × Staging N W R :=
  let staged := parallel_for env elements schedule st.clear
  (forward staged, staged)

/-- The original element index a callback call is about, when it carries one. -/
def Call.index {N W R : Type} : Call N W R → Option Nat
  | .ProcessNode element _ => some element
  | .ProcessWay element _ => some element
  | .ProcessRestriction _ => none

/-- The worker order of a single thread: ascending indices. -/
def sequential (n : Nat) : List Nat := List.range n

/-! ## The size of the thread pool in `Extractor::Run` -/

/-- Conversion `static_cast<int>(u)` of a 32-bit `unsigned`: a value from `2^31` on does
not fit and comes out `2^32` lower, as a negative number. -/
def castToInt (u : Nat) : Int :=
  if u % 4294967296 < 2147483648 then ((u % 4294967296 : Nat) : Int)
  else ((u % 4294967296 : Nat) : Int) - 4294967296

/-- The test `1 > extractor_config.requested_num_threads` that makes `Run` log "Number of
threads must be 1 or larger" and return 1.  The member is declared in `ExtractorOptions.h`,
which is not among the sources; it is a 32-bit `unsigned`, as the cast applied to it
shows. -/
def threadsRejected (requested_num_threads : Nat) : Prop :=
  1 > requested_num_threads

instance (requested_num_threads : Nat) : Decidable (threadsRejected requested_num_threads) := by
  unfold threadsRejected; infer_instance

/-- The initialiser of `number_of_threads`: `std::max(1, std::min(
static_cast<int>(recommended_num_threads), static_cast<int>(requested_num_threads)))`, where
`recommended_num_threads` is the `unsigned` that holds the concurrency of the hardware. -/
def number_of_threads (recommended_num_threads requested_num_threads : Nat) : Int :=
  max 1 (min (castToInt recommended_num_threads) (castToInt requested_num_threads))

/-! ## The rules of the specification, for comparison -/

/-- The exact fractional column index `(lon - xmin) / xstep` of the specification. -/
def RasterSource.fx (s : RasterSource) (lon : ℚ) : ℚ :=
  (lon - s.xmin) / s.xstep

/-- The exact fractional row index `(ymax - lat) / ystep` of the specification. -/
def RasterSource.fy (s : RasterSource) (lat : ℚ) : ℚ :=
  (s.ymax - lat) / s.ystep

/-- The rounding rule the specification gives for the nearest sample, on an untruncated
fractional index: down when the fractional part exceeds `step / 2`, up otherwise. -/
def specNearestIndex (f step : ℚ) : Int :=
  if f - ⌊f⌋ > step / 2 then ⌊f⌋ else ⌈f⌉

/-- The bilinear value the specification gives, before the conversion to 16 bits: corners
`t = floor(fy)`, `b = ceil(fy)`, `l = floor(fx)`, `r = ceil(fx)` and weights `x = fx - l`,
`y = fy - t`, all from the untruncated fractional indices. -/
def specBilinear (s : RasterSource) (lon lat : ℚ) : Outcome ℚ :=
  let t : Int := ⌊s.fy lat⌋
  let b : Int := ⌈s.fy lat⌉
  let l : Int := ⌊s.fx lon⌋
  let r : Int := ⌈s.fx lon⌉
  let x : ℚ := s.fx lon - l
  let y : ℚ := s.fy lat - t
  (cellAt s.raster_data t l).bind fun tl =>
  (cellAt s.raster_data t r).bind fun tr =>
  (cellAt s.raster_data b l).bind fun bl =>
  (cellAt s.raster_data b r).bind fun br =>
  .ok ((1 - x) * (1 - y) * tl + x * (1 - y) * tr + (1 - x) * y * bl + x * y * br)

/-- The pool size the specification gives: `clamp(requestedThreads, 1,
hardwareConcurrency)`. -/
def specThreads (requestedThreads hardwareConcurrency : Nat) : Nat :=
  max 1 (min requestedThreads hardwareConcurrency)

/-! ## Descriptions used in the statements about the driver -/

/-- The `ProcessNode` call that index `x` of the buffer leads to, if `elements[x]` is a
node. -/
def nodeCall {E N W : Type} (R : Type) (env : ScriptingEnvironment E N W) (elements : List E)
    (x : Nat) : Option (Call N W R) :=
  match elements[x]? with
  | none => none
  | some entity =>
    match env.type entity with
    | .node => some (.ProcessNode x (env.node_function entity))
    | _ => none

/-- The `ProcessWay` call that index `x` of the buffer leads to, if `elements[x]` is a
way. -/
def wayCall {E N W : Type} (R : Type) (env : ScriptingEnvironment E N W) (elements : List E)
    (x : Nat) : Option (Call N W R) :=
  match elements[x]? with
  | none => none
  | some entity =>
    match env.type entity with
    | .way => some (.ProcessWay x (env.way_function entity))
    | _ => none

/-- The calls are issued in strictly ascending original element index. -/
def ascendingIndex {N W R : Type} (calls : List (Call N W R)) : Prop :=
  (calls.filterMap Call.index).Pairwise (fun i j => i < j)

instance {N W R : Type} (calls : List (Call N W R)) : Decidable (ascendingIndex calls) := by
  unfold ascendingIndex; infer_instance

/-! ## Concrete inputs -/

/-- A grid of two rows and two columns. -/
def grid2x2 : List (List Int) := [[0, 0], [0, 16]]

/-- The source that the constructor builds from `grid2x2` with bounds `(0, 2, 0, 2)`: both
steps are 1. -/
def source2x2 : RasterSource :=
  { xstep := 1, ystep := 1, raster_data := grid2x2, xmin := 0, xmax := 2, ymin := 0, ymax := 2 }

/-- The same grid placed at `(1, 3, 0, 2)`, so that `xmin` is not zero. -/
def shifted2x2 : RasterSource :=
  { xstep := 1, ystep := 1, raster_data := grid2x2, xmin := 1, xmax := 3, ymin := 0, ymax := 2 }

/-- A file system with `grid2x2` stored at `grid.asc` and nothing else. -/
def fs2x2 : FileSystem :=
  fun path => if path = "grid.asc" then some grid2x2 else none

/-- The registry after loading `grid.asc` with bounds `(0, 2, 0, 2)` into the empty one. -/
def registry2x2 : Registry :=
  { LoadedSources := [source2x2], LoadedSourcePaths := [("grid.asc", 0)] }

/-- A file system with a ragged grid at `ragged.asc`: a line of two integers, then a line of
one. -/
def fsRagged : FileSystem :=
  fun path => if path = "ragged.asc" then some [[1, 2], [3]] else none

/-- The source that the constructor builds from the ragged grid with bounds `(0, 2, 0, 4)`:
`xstep` is 2 / 2 and `ystep` is 4 / 2. -/
def raggedSource : RasterSource :=
  { xstep := 1, ystep := 2, raster_data := [[1, 2], [3]],
    xmin := 0, xmax := 2, ymin := 0, ymax := 4 }

/-- The driver state before the first buffer, with numbers for the staged results. -/
def firstBuffer : Staging Nat Nat Nat := Staging.initial

/-- Entities that are a type tag with a number; the profile functions return the number. -/
def tagEnv : ScriptingEnvironment (item_type × Nat) Nat Nat :=
  { type := Prod.fst, node_function := Prod.snd, way_function := Prod.snd }

/-! ## Exact arithmetic -/

/-- The arithmetic of the real numbers is exact. -/
theorem exactArithmetic_exact : exactArithmetic.Exact :=
  fun _ => ⟨rfl, rfl⟩

/-- In exact arithmetic the difference of two finite values is their difference. -/
theorem sub_exact (A : Arithmetic) (hA : A.Exact) (a b : ℚ) :
    Fp.sub A.toDouble (.fin a) (.fin b) = .fin (a - b) ∧
    Fp.sub A.toFloat (.fin a) (.fin b) = .fin (a - b) := by
  simp only [Fp.sub, Fp.neg, Fp.add, (hA _).1, (hA _).2, sub_eq_add_neg, and_self]

/-- In exact arithmetic the sum of two finite values is their sum. -/
theorem add_exact (A : Arithmetic) (hA : A.Exact) (a b : ℚ) :
    Fp.add A.toDouble (.fin a) (.fin b) = .fin (a + b) ∧
    Fp.add A.toFloat (.fin a) (.fin b) = .fin (a + b) := by
  simp only [Fp.add, (hA _).1, (hA _).2, and_self]

/-- In exact arithmetic the product of two finite values is their product. -/
theorem mul_exact (A : Arithmetic) (hA : A.Exact) (a b : ℚ) :
    Fp.mul A.toDouble (.fin a) (.fin b) = .fin (a * b) ∧
    Fp.mul A.toFloat (.fin a) (.fin b) = .fin (a * b) := by
  simp only [Fp.mul, (hA _).1, (hA _).2, and_self]

/-- In exact arithmetic the quotient of two finite values, the divisor not zero, is their
quotient. -/
theorem div_exact (A : Arithmetic) (hA : A.Exact) (a b : ℚ) (hb : b ≠ 0) :
    Fp.div A.toDouble (.fin a) (.fin b) = .fin (a / b) ∧
    Fp.div A.toFloat (.fin a) (.fin b) = .fin (a / b) := by
  simp only [Fp.div, if_neg hb, (hA _).1, (hA _).2, and_self]

/-- In exact arithmetic a finite value is stored as it is. -/
theorem store_exact (A : Arithmetic) (hA : A.Exact) (a : ℚ) :
    Fp.store A.toFloat (.fin a) = .fin a := by
  simp only [Fp.store, (hA _).1]

/-- The rounding expression of `getRasterData` returns its operand in every arithmetic:
floor and ceiling of an `unsigned` are the value itself. -/
theorem nearestIndexIn_self (A : Arithmetic) (thP : Nat) (step : Fp) :
    nearestIndexIn A thP step = .fin (thP : ℚ) := by
  unfold nearestIndexIn
  simp

/-- Truncation is the floor on nonnegative values. -/
theorem truncate_of_nonneg (q : ℚ) (h : 0 ≤ q) : truncate q = ⌊q⌋ := by
  unfold truncate
  rw [if_neg (not_lt.mpr h)]

/-- Truncation leaves a natural number as it is. -/
theorem truncate_natCast (n : Nat) : truncate (n : ℚ) = n := by
  rw [truncate_of_nonneg _ (Nat.cast_nonneg n)]
  exact Int.floor_natCast n

/-- Conversion to `unsigned` of a nonnegative value in range is its floor. -/
theorem toUnsigned_of_nonneg (q : ℚ) (h0 : 0 ≤ q) (h1 : q < 4294967296) :
    toUnsigned q = .ok ⌊q⌋.toNat := by
  unfold toUnsigned
  rw [truncate_of_nonneg q h0]
  have hf0 : 0 ≤ ⌊q⌋ := Int.floor_nonneg.mpr h0
  have hf1 : ⌊q⌋ < 4294967296 := by
    rw [Int.floor_lt]
    exact_mod_cast h1
  rw [if_pos ⟨hf0, hf1⟩]

/-- Conversion to `int` of a natural number below `2^31`. -/
theorem toInt_natCast (n : Nat) (h : n < 2147483648) : toInt (n : ℚ) = .ok (n : Int) := by
  unfold toInt
  rw [truncate_natCast]
  have h1 : (-2147483648 : Int) ≤ (n : Int) := by omega
  have h2 : (n : Int) < 2147483648 := by omega
  rw [if_pos ⟨h1, h2⟩]

/-- What the index computation comes to in exact arithmetic for a positive step: the
conversion to `unsigned` yields the floor of the exact quotient. -/
theorem fractionalIndexIn_exact (A : Arithmetic) (hA : A.Exact) (minuend subtrahend step : ℚ)
    (hstep : 0 < step) (hnum : 0 ≤ minuend - subtrahend)
    (hlt : (minuend - subtrahend) / step < 2147483648) :
    fractionalIndexIn A minuend subtrahend (.fin step) =
      .ok ⌊(minuend - subtrahend) / step⌋.toNat ∧
    ((⌊(minuend - subtrahend) / step⌋.toNat : Nat) : Int) = ⌊(minuend - subtrahend) / step⌋ ∧
    ⌊(minuend - subtrahend) / step⌋.toNat < 2147483648 := by
  have hq : 0 ≤ (minuend - subtrahend) / step := div_nonneg hnum hstep.le
  have hf0 : 0 ≤ ⌊(minuend - subtrahend) / step⌋ := Int.floor_nonneg.mpr hq
  have hcast : ((⌊(minuend - subtrahend) / step⌋.toNat : Nat) : Int) =
      ⌊(minuend - subtrahend) / step⌋ := Int.toNat_of_nonneg hf0
  have hf1 : ⌊(minuend - subtrahend) / step⌋ < 2147483648 := by
    rw [Int.floor_lt]
    exact_mod_cast hlt
  have hn : ⌊(minuend - subtrahend) / step⌋.toNat < 2147483648 := by omega
  refine ⟨?_, hcast, hn⟩
  unfold fractionalIndexIn
  rw [(sub_exact A hA _ _).1, (div_exact A hA _ _ hstep.ne').1]
  exact toUnsigned_of_nonneg _ hq (lt_trans hlt (by norm_num))

/-- A point passes the bounds test exactly when it lies in the closed rectangle. -/
theorem not_outside_iff (s : RasterSource) (lon lat : ℚ) :
    ¬ s.outside lon lat ↔ s.xmin ≤ lon ∧ lon ≤ s.xmax ∧ s.ymin ≤ lat ∧ lat ≤ s.ymax := by
  unfold RasterSource.outside
  simp only [not_or, not_lt, gt_iff_lt]

/-- In exact arithmetic and with positive steps, the nearest query indexes row `floor(fy)`
and column `floor(fx)` for every point that passes the bounds test, whatever the fractional
parts are. -/
theorem nearestCell_eq_floor (A : Arithmetic) (hA : A.Exact) (s : RasterSource)
    (lon lat xstep ystep : ℚ)
    (hxs : s.xstep = .fin xstep) (hys : s.ystep = .fin ystep)
    (hxpos : 0 < xstep) (hypos : 0 < ystep) (hin : ¬ s.outside lon lat)
    (hfx : (lon - s.xmin) / xstep < 2147483648) (hfy : (s.ymax - lat) / ystep < 2147483648) :
    s.nearestCellIn A lon lat =
      .ok (⌊(s.ymax - lat) / ystep⌋, ⌊(lon - s.xmin) / xstep⌋) := by
  obtain ⟨hx0, -, -, hy1⟩ := (not_outside_iff s lon lat).mp hin
  have hx := fractionalIndexIn_exact A hA lon s.xmin xstep hxpos (sub_nonneg.mpr hx0) hfx
  have hy := fractionalIndexIn_exact A hA s.ymax lat ystep hypos (sub_nonneg.mpr hy1) hfy
  unfold RasterSource.nearestCellIn
  rw [hxs, hys, hx.1]
  simp only [Outcome.bind, nearestIndexIn_self, Fp.toInt]
  rw [toInt_natCast _ hx.2.2, hy.1]
  simp only [Outcome.bind, nearestIndexIn_self, Fp.toInt]
  rw [toInt_natCast _ hy.2.2]
  simp only [hx.2.1, hy.2.1]

/-- In exact arithmetic and with positive steps, the four corners of the bilinear query
coincide: top and bottom are `floor(fy)`, left and right are `floor(fx)`. -/
theorem cornerIndices_eq_floor (A : Arithmetic) (hA : A.Exact) (s : RasterSource)
    (lon lat xstep ystep : ℚ)
    (hxs : s.xstep = .fin xstep) (hys : s.ystep = .fin ystep)
    (hxpos : 0 < xstep) (hypos : 0 < ystep) (hin : ¬ s.outside lon lat)
    (hfx : (lon - s.xmin) / xstep < 2147483648) (hfy : (s.ymax - lat) / ystep < 2147483648) :
    s.cornerIndicesIn A lon lat =
      .ok { top := ⌊(s.ymax - lat) / ystep⌋, bottom := ⌊(s.ymax - lat) / ystep⌋,
            left := ⌊(lon - s.xmin) / xstep⌋, right := ⌊(lon - s.xmin) / xstep⌋ } := by
  obtain ⟨hx0, -, -, hy1⟩ := (not_outside_iff s lon lat).mp hin
  have hx := fractionalIndexIn_exact A hA lon s.xmin xstep hxpos (sub_nonneg.mpr hx0) hfx
  have hy := fractionalIndexIn_exact A hA s.ymax lat ystep hypos (sub_nonneg.mpr hy1) hfy
  unfold RasterSource.cornerIndicesIn
  rw [hxs, hys, hx.1, hy.1]
  simp only [Outcome.bind, Int.floor_natCast, Int.ceil_natCast, Int.cast_natCast]
  rw [toInt_natCast _ hx.2.2, toInt_natCast _ hy.2.2]
  simp only [hx.2.1, hy.2.1]

/-- In every arithmetic the four corners of the bilinear query coincide: floor and ceiling
are taken of an `unsigned`, so bottom is top and right is left. -/
theorem corners_coincide (A : Arithmetic) (s : RasterSource) (lon lat : ℚ) (c : CornerIndices)
    (h : s.cornerIndicesIn A lon lat = .ok c) :
    c.bottom = c.top ∧ c.right = c.left := by
  unfold RasterSource.cornerIndicesIn at h
  cases hx : fractionalIndexIn A lon s.xmin s.xstep with
  | ok xthP =>
    cases hy : fractionalIndexIn A s.ymax lat s.ystep with
    | ok ythP =>
      simp only [hx, hy, Outcome.bind, Int.floor_natCast, Int.ceil_natCast, Int.cast_natCast] at h
      cases ht : toInt (ythP : ℚ) with
      | ok top =>
        cases hl : toInt (xthP : ℚ) with
        | ok left =>
          simp only [ht, hl, Outcome.ok.injEq] at h
          subst h
          exact ⟨rfl, rfl⟩
        | exception w => simp [ht, hl] at h
        | assertion => simp [ht, hl] at h
        | undefined => simp [ht, hl] at h
      | exception w => simp [ht] at h
      | assertion => simp [ht] at h
      | undefined => simp [ht] at h
    | exception w => simp [hx, hy, Outcome.bind] at h
    | assertion => simp [hx, hy, Outcome.bind] at h
    | undefined => simp [hx, hy, Outcome.bind] at h
  | exception w => simp [hx, Outcome.bind] at h
  | assertion => simp [hx, Outcome.bind] at h
  | undefined => simp [hx, Outcome.bind] at h

/-- A natural number that converts to `int` converts to itself. -/
theorem toInt_natCast_eq (n : Nat) (v : Int) (h : toInt (n : ℚ) = .ok v) : v = n := by
  unfold toInt at h
  rw [truncate_natCast] at h
  split_ifs at h
  simp only [Outcome.ok.injEq] at h
  exact h.symm

/-- In every arithmetic the nearest query indexes the two truncated indices themselves: the
rounding expression changes nothing. -/
theorem nearestCellIn_truncated (A : Arithmetic) (s : RasterSource) (lon lat : ℚ)
    (yth xth : Int) (h : s.nearestCellIn A lon lat = .ok (yth, xth)) :
    ∃ xthP ythP : Nat,
      fractionalIndexIn A lon s.xmin s.xstep = .ok xthP ∧
      fractionalIndexIn A s.ymax lat s.ystep = .ok ythP ∧
      xth = xthP ∧ yth = ythP := by
  unfold RasterSource.nearestCellIn at h
  cases hx : fractionalIndexIn A lon s.xmin s.xstep with
  | ok xthP =>
    cases hy : fractionalIndexIn A s.ymax lat s.ystep with
    | ok ythP =>
      simp only [hx, hy, Outcome.bind, nearestIndexIn_self, Fp.toInt] at h
      cases hl : toInt (xthP : ℚ) with
      | ok left =>
        cases ht : toInt (ythP : ℚ) with
        | ok top =>
          simp only [ht, hl, Outcome.ok.injEq, Prod.mk.injEq] at h
          obtain ⟨h1, h2⟩ := h
          subst h1 h2
          exact ⟨xthP, ythP, rfl, rfl, toInt_natCast_eq _ _ hl, toInt_natCast_eq _ _ ht⟩
        | exception w => simp [ht, hl] at h
        | assertion => simp [ht, hl] at h
        | undefined => simp [ht, hl] at h
      | exception w => simp [hl] at h
      | assertion => simp [hl] at h
      | undefined => simp [hl] at h
    | exception w =>
      simp only [hx, hy, Outcome.bind, nearestIndexIn_self, Fp.toInt] at h
      cases hl : toInt (xthP : ℚ) <;> simp [hl] at h
    | assertion =>
      simp only [hx, hy, Outcome.bind, nearestIndexIn_self, Fp.toInt] at h
      cases hl : toInt (xthP : ℚ) <;> simp [hl] at h
    | undefined =>
      simp only [hx, hy, Outcome.bind, nearestIndexIn_self, Fp.toInt] at h
      cases hl : toInt (xthP : ℚ) <;> simp [hl] at h
  | exception w => simp [hx, Outcome.bind] at h
  | assertion => simp [hx, Outcome.bind] at h
  | undefined => simp [hx, Outcome.bind] at h

/-- In exact arithmetic the two weights are finite: `x = (lon - left * xstep + xmin) / xstep`
and `y = (ymax - top * ystep - lat) / ystep`. -/
theorem weights_exact (A : Arithmetic) (hA : A.Exact) (s : RasterSource)
    (lon lat xstep ystep : ℚ) (left top : Int)
    (hxs : s.xstep = .fin xstep) (hys : s.ystep = .fin ystep)
    (hxpos : 0 < xstep) (hypos : 0 < ystep) :
    s.weightXIn A lon left = .fin ((lon - left * xstep + s.xmin) / xstep) ∧
    s.weightYIn A lat top = .fin ((s.ymax - top * ystep - lat) / ystep) := by
  unfold RasterSource.weightXIn RasterSource.weightYIn
  rw [hxs, hys]
  simp only [(hA _).1, (mul_exact A hA _ _).2, (sub_exact A hA _ _).2, (sub_exact A hA _ _).1,
    (add_exact A hA _ _).1, (div_exact A hA _ _ hxpos.ne').1, (div_exact A hA _ _ hypos.ne').1,
    store_exact A hA, and_self]

/-- The four bilinear weights add up to 1 for all `x` and `y`, so four copies of one datum
weigh in as that datum. -/
theorem weights_sum (d x y : ℚ) :
    d * ((1 - x) * (1 - y)) + d * (x * (1 - y)) + d * ((1 - x) * y) + d * (x * y) = d := by
  ring

/-- In exact arithmetic the returned expression for four equal data and finite weights is
that datum. -/
theorem weightedSum_exact (A : Arithmetic) (hA : A.Exact) (d : Int) (x y : ℚ) :
    weightedSumIn A d d d d (.fin x) (.fin y) = .fin (d : ℚ) := by
  unfold weightedSumIn summandIn complementIn
  simp only [(hA _).1, (mul_exact A hA _ _).2, (sub_exact A hA _ _).1, (add_exact A hA _ _).2,
    store_exact A hA]
  rw [weights_sum]

/-! ## Raster queries -/

/-- What a successful construction tells: the grid starts with a non-empty row, the steps
are what `calcSize` returns for the length of that row and for the number of rows, neither
is zero, and the rows and the bounds are stored as given. -/
theorem constructIn_ok (A : Arithmetic) (rasterData : List (List Int))
    (xmin xmax ymin ymax : ℚ) (s : RasterSource)
    (h : RasterSource.constructIn A rasterData xmin xmax ymin ymax = .ok s) :
    (∃ row0 rows, rasterData = row0 :: rows ∧ row0 ≠ [] ∧
      calcSizeIn A xmin xmax row0.length = .ok s.xstep) ∧
    calcSizeIn A ymin ymax rasterData.length = .ok s.ystep ∧
    s.xstep ≠ .fin 0 ∧ s.ystep ≠ .fin 0 ∧
    s.raster_data = rasterData ∧
    s.xmin = xmin ∧ s.xmax = xmax ∧ s.ymin = ymin ∧ s.ymax = ymax := by
  cases rasterData with
  | nil => simp [RasterSource.constructIn] at h
  | cons row0 rows =>
    have hunfold : RasterSource.constructIn A (row0 :: rows) xmin xmax ymin ymax =
        (calcSizeIn A xmin xmax row0.length).bind fun xstep =>
        (calcSizeIn A ymin ymax (row0 :: rows).length).bind fun ystep =>
        if xstep = .fin 0 then .assertion
        else if ystep = .fin 0 then .assertion
        else .ok { xstep := xstep, ystep := ystep, raster_data := row0 :: rows,
                   xmin := xmin, xmax := xmax, ymin := ymin, ymax := ymax } := rfl
    rw [hunfold] at h
    cases hx : calcSizeIn A xmin xmax row0.length with
    | ok xstep =>
      rw [hx] at h
      cases hy : calcSizeIn A ymin ymax (row0 :: rows).length with
      | ok ystep =>
        rw [hy] at h
        simp only [Outcome.bind] at h
        split_ifs at h with h1 h2
        simp only [Outcome.ok.injEq] at h
        subst h
        have hrow : row0 ≠ [] := by
          intro hnil
          subst hnil
          simp [calcSizeIn] at hx
        exact ⟨⟨row0, rows, rfl, hrow, hx⟩, rfl, h1, h2, rfl, rfl, rfl, rfl, rfl⟩
      | exception w => rw [hy] at h; simp [Outcome.bind] at h
      | assertion => rw [hy] at h; simp [Outcome.bind] at h
      | undefined => rw [hy] at h; simp [Outcome.bind] at h
    | exception w => rw [hx] at h; simp [Outcome.bind] at h
    | assertion => rw [hx] at h; simp [Outcome.bind] at h
    | undefined => rw [hx] at h; simp [Outcome.bind] at h

/-- The constructor succeeds whenever `calcSize` returns two steps that differ from zero,
which asks for a first row that is not empty. -/
theorem constructIn_of_steps (A : Arithmetic) (row0 : List Int) (rows : List (List Int))
    (xmin xmax ymin ymax : ℚ) (xstep ystep : Fp)
    (hx : calcSizeIn A xmin xmax row0.length = .ok xstep)
    (hy : calcSizeIn A ymin ymax (row0 :: rows).length = .ok ystep)
    (hx0 : xstep ≠ .fin 0) (hy0 : ystep ≠ .fin 0) :
    RasterSource.constructIn A (row0 :: rows) xmin xmax ymin ymax =
      .ok { xstep := xstep, ystep := ystep, raster_data := row0 :: rows,
            xmin := xmin, xmax := xmax, ymin := ymin, ymax := ymax } := by
  have hunfold : RasterSource.constructIn A (row0 :: rows) xmin xmax ymin ymax =
      (calcSizeIn A xmin xmax row0.length).bind fun xstep =>
      (calcSizeIn A ymin ymax (row0 :: rows).length).bind fun ystep =>
      if xstep = .fin 0 then .assertion
      else if ystep = .fin 0 then .assertion
      else .ok { xstep := xstep, ystep := ystep, raster_data := row0 :: rows,
                 xmin := xmin, xmax := xmax, ymin := ymin, ymax := ymax } := rfl
  rw [hunfold, hx, hy]
  simp only [Outcome.bind, if_neg hx0, if_neg hy0]

/-- In exact arithmetic the constructor succeeds on a grid whose first row is not empty
when the bounds do not coincide; the steps are the exact quotients. -/
theorem construct_exact (A : Arithmetic) (hA : A.Exact) (row0 : List Int)
    (rows : List (List Int)) (xmin xmax ymin ymax : ℚ)
    (hrow : row0 ≠ []) (hx : xmin ≠ xmax) (hy : ymin ≠ ymax) :
    RasterSource.constructIn A (row0 :: rows) xmin xmax ymin ymax =
      .ok { xstep := .fin ((xmax - xmin) / row0.length),
            ystep := .fin ((ymax - ymin) / (row0 :: rows).length),
            raster_data := row0 :: rows,
            xmin := xmin, xmax := xmax, ymin := ymin, ymax := ymax } := by
  have hlen : 0 < row0.length := List.length_pos.mpr hrow
  have hlenq : ((row0.length : Nat) : ℚ) ≠ 0 := by exact_mod_cast hlen.ne'
  have hlen2q : (((row0 :: rows).length : Nat) : ℚ) ≠ 0 := by
    have : (row0 :: rows).length ≠ 0 := by simp
    exact_mod_cast this
  have hx0 : (xmax - xmin) / (row0.length : ℚ) ≠ 0 :=
    div_ne_zero (sub_ne_zero.mpr (Ne.symm hx)) hlenq
  have hy0 : (ymax - ymin) / ((row0 :: rows).length : ℚ) ≠ 0 :=
    div_ne_zero (sub_ne_zero.mpr (Ne.symm hy)) hlen2q
  have cx : calcSizeIn A xmin xmax row0.length = .ok (.fin ((xmax - xmin) / row0.length)) := by
    unfold calcSizeIn
    rw [if_pos hlen, (sub_exact A hA _ _).1, (div_exact A hA _ _ hlenq).1, store_exact A hA]
  have cy : calcSizeIn A ymin ymax (row0 :: rows).length =
      .ok (.fin ((ymax - ymin) / (row0 :: rows).length)) := by
    unfold calcSizeIn
    rw [if_pos (by simp), (sub_exact A hA _ _).1, (div_exact A hA _ _ hlen2q).1,
      store_exact A hA]
  unfold RasterSource.constructIn
  simp only [cx, cy, Outcome.bind]
  rw [if_neg (by simpa using hx0), if_neg (by simpa using hy0)]

/-- The fractional index of a value `v` in `[0, hi - lo]` under the step `(hi - lo) / count`
lies in `[0, count]` and reaches `count` exactly at `v = hi - lo`. -/
theorem frac_index_bounds (lo hi v : ℚ) (count : Nat) (hcount : 0 < count) (hlohi : lo < hi)
    (h0 : 0 ≤ v) (h1 : v ≤ hi - lo) :
    0 < (hi - lo) / count ∧ 0 ≤ v / ((hi - lo) / count) ∧ v / ((hi - lo) / count) ≤ count ∧
    (v / ((hi - lo) / count) < count ↔ v < hi - lo) := by
  have hc : (0 : ℚ) < count := by exact_mod_cast hcount
  have hd : 0 < hi - lo := sub_pos.mpr hlohi
  have hstep : 0 < (hi - lo) / count := div_pos hd hc
  have hmul : (count : ℚ) * ((hi - lo) / count) = hi - lo := by field_simp
  refine ⟨hstep, div_nonneg h0 hstep.le, ?_, ?_⟩
  · rw [div_le_iff₀ hstep, hmul]; exact h1
  · rw [div_lt_iff₀ hstep, hmul]

/-- In a rectangular grid every existing row has the length of the first. -/
theorem rect_getD (row0 : List Int) (rows : List (List Int))
    (hrect : ∀ r ∈ rows, r.length = row0.length) (i : Nat) (hi : i < (row0 :: rows).length) :
    ((row0 :: rows).getD i []).length = row0.length := by
  have hmem : (row0 :: rows).getD i [] ∈ row0 :: rows := by
    rw [List.getD_eq_getElem _ _ hi]
    exact List.getElem_mem _
  rcases List.mem_cons.mp hmem with h | h
  · rw [h]
  · exact hrect _ h

/-- Indexing an existing cell returns its datum. -/
theorem cellAt_of_exists (g : List (List Int)) (row col : Int) (h : cellExists g (row, col)) :
    ∃ d, cellAt g row col = .ok d := by
  obtain ⟨h1, h2, h3, h4⟩ := h
  simp only at h1 h2 h3 h4
  have hr : row.toNat < g.length := by omega
  unfold cellAt
  rw [if_pos ⟨h1, h3⟩, List.getElem?_eq_getElem hr]
  rw [List.getD_eq_getElem _ _ hr] at h4
  have hc : col.toNat < (g[row.toNat]).length := by omega
  simp only [List.getElem?_eq_getElem hc]
  exact ⟨_, rfl⟩

/-- In exact arithmetic, for a source built by the constructor from a rectangular grid, and
a point that passes the bounds test: both queries index cell `(floor(fy), floor(fx))`, and
that cell exists exactly when the point is off the two inclusive edges `lon = xmax` and
`lat = ymin`.  Off those edges the nearest query returns a datum. -/
theorem nearest_read_exists_iff (A : Arithmetic) (hA : A.Exact) (row0 : List Int)
    (rows : List (List Int)) (xmin xmax ymin ymax : ℚ) (s : RasterSource) (lon lat : ℚ)
    (hrow : row0 ≠ []) (hrect : ∀ r ∈ rows, r.length = row0.length)
    (hx : xmin < xmax) (hy : ymin < ymax)
    (hcols : row0.length < 2147483648) (hrows : (row0 :: rows).length < 2147483648)
    (hs : RasterSource.constructIn A (row0 :: rows) xmin xmax ymin ymax = .ok s)
    (hin : ¬ s.outside lon lat) :
    (s.getRasterDataIn A lon lat).reads = [(⌊s.fy lat⌋, ⌊s.fx lon⌋)] ∧
    (s.getRasterInterpolateIn A lon lat).reads =
      [(⌊s.fy lat⌋, ⌊s.fx lon⌋), (⌊s.fy lat⌋, ⌊s.fx lon⌋),
       (⌊s.fy lat⌋, ⌊s.fx lon⌋), (⌊s.fy lat⌋, ⌊s.fx lon⌋)] ∧
    (cellExists s.raster_data (⌊s.fy lat⌋, ⌊s.fx lon⌋) ↔ lon < xmax ∧ ymin < lat) ∧
    (lon < xmax → ymin < lat →
      ∃ d, (s.getRasterDataIn A lon lat).result =
        .ok { has_data := true, datum := some d }) := by
  rw [construct_exact A hA row0 rows xmin xmax ymin ymax hrow hx.ne hy.ne] at hs
  injection hs with hs
  have e1 : s.xstep = .fin ((xmax - xmin) / row0.length) := by rw [← hs]
  have e2 : s.ystep = .fin ((ymax - ymin) / (row0 :: rows).length) := by rw [← hs]
  have e3 : s.raster_data = row0 :: rows := by rw [← hs]
  have e4 : s.xmin = xmin := by rw [← hs]
  have e5 : s.xmax = xmax := by rw [← hs]
  have e6 : s.ymin = ymin := by rw [← hs]
  have e7 : s.ymax = ymax := by rw [← hs]
  clear hs
  obtain ⟨hx0, hx1, hy0, hy1⟩ := (not_outside_iff _ lon lat).mp hin
  rw [e4] at hx0
  rw [e5] at hx1
  rw [e6] at hy0
  rw [e7] at hy1
  have hlen : 0 < row0.length := List.length_pos.mpr hrow
  have hlen2 : 0 < (row0 :: rows).length := by simp
  obtain ⟨hxs, hfx0, hfx1, hfxlt⟩ := frac_index_bounds xmin xmax (lon - xmin) row0.length hlen hx
    (sub_nonneg.mpr hx0) (by linarith)
  obtain ⟨hys, hfy0, hfy1, hfylt⟩ := frac_index_bounds ymin ymax (ymax - lat)
    (row0 :: rows).length hlen2 hy (sub_nonneg.mpr hy1) (by linarith)
  have efx : s.fx lon = (lon - xmin) / ((xmax - xmin) / row0.length) := by
    rw [RasterSource.fx, e1, e4]; rfl
  have efy : s.fy lat = (ymax - lat) / ((ymax - ymin) / (row0 :: rows).length) := by
    rw [RasterSource.fy, e2, e7]; rfl
  have hfx : (lon - s.xmin) / ((xmax - xmin) / row0.length) < 2147483648 := by
    rw [e4]; exact lt_of_le_of_lt hfx1 (by exact_mod_cast hcols)
  have hfy : (s.ymax - lat) / ((ymax - ymin) / (row0 :: rows).length) < 2147483648 := by
    rw [e7]; exact lt_of_le_of_lt hfy1 (by exact_mod_cast hrows)
  have hcell := nearestCell_eq_floor A hA s lon lat _ _ e1 e2 hxs hys hin hfx hfy
  have hcorn := cornerIndices_eq_floor A hA s lon lat _ _ e1 e2 hxs hys hin hfx hfy
  rw [e4, e7] at hcell hcorn
  have hexists : cellExists s.raster_data (⌊s.fy lat⌋, ⌊s.fx lon⌋) ↔
      lon < xmax ∧ ymin < lat := by
    unfold cellExists
    rw [e3, efx, efy]
    simp only
    have hfxn : 0 ≤ ⌊(lon - xmin) / ((xmax - xmin) / ↑row0.length)⌋ := Int.floor_nonneg.mpr hfx0
    have hfyn : 0 ≤ ⌊(ymax - lat) / ((ymax - ymin) / ↑(row0 :: rows).length)⌋ :=
      Int.floor_nonneg.mpr hfy0
    have hxiff : ⌊(lon - xmin) / ((xmax - xmin) / ↑row0.length)⌋ < (row0.length : Int) ↔
        lon < xmax := by
      rw [Int.floor_lt]
      push_cast
      rw [hfxlt]
      constructor <;> intro h <;> linarith
    have hyiff : ⌊(ymax - lat) / ((ymax - ymin) / ↑(row0 :: rows).length)⌋ <
        ((row0 :: rows).length : Int) ↔ ymin < lat := by
      rw [Int.floor_lt]
      push_cast
      have := hfylt
      push_cast at this
      rw [this]
      constructor <;> intro h <;> linarith
    constructor
    · rintro ⟨-, h2, -, h4⟩
      have hi : (⌊(ymax - lat) / ((ymax - ymin) / ↑(row0 :: rows).length)⌋).toNat <
          (row0 :: rows).length := by omega
      rw [rect_getD row0 rows hrect _ hi] at h4
      exact ⟨hxiff.mp h4, hyiff.mp h2⟩
    · rintro ⟨h1, h2⟩
      have h2' := hyiff.mpr h2
      have hi : (⌊(ymax - lat) / ((ymax - ymin) / ↑(row0 :: rows).length)⌋).toNat <
          (row0 :: rows).length := by omega
      refine ⟨hfyn, h2', hfxn, ?_⟩
      rw [rect_getD row0 rows hrect _ hi]
      exact hxiff.mpr h1
  refine ⟨?_, ?_, hexists, ?_⟩
  · unfold RasterSource.getRasterDataIn
    rw [if_neg hin, hcell, efx, efy]
  · unfold RasterSource.getRasterInterpolateIn
    rw [if_neg hin, hcorn, efx, efy]
  · intro h1 h2
    obtain ⟨d, hd⟩ := cellAt_of_exists _ _ _ (hexists.mpr ⟨h1, h2⟩)
    refine ⟨d, ?_⟩
    rw [efx, efy] at hd
    unfold RasterSource.getRasterDataIn
    rw [if_neg hin, hcell]
    simp only [hd, Outcome.bind, RasterDatum.ofShort]

/-- The concrete sources and the concrete registry are what the code builds: the
constructor yields `source2x2` and `shifted2x2`, and loading `grid.asc` into the empty
registry yields `registry2x2` with id 0. -/
theorem concrete_inputs_are_loaded :
    RasterSource.construct grid2x2 0 2 0 2 = .ok source2x2 ∧
    RasterSource.construct grid2x2 1 3 0 2 = .ok shifted2x2 ∧
    loadRasterSource fs2x2 Registry.empty "grid.asc" 0 2 0 2 =
      { result := .ok 0, registry := registry2x2 } := by
  decide!

/-- C1 (evaluation of the code at the failing input). The source built from a 2 by 2 grid
with bounds `(0, 2, 0, 2)` is queried on its inclusive edges.  At `lon = xmax` the point
passes the bounds test and the column index is 2, the number of columns; at `lat = ymin` the
row index is 2, the number of rows.  Neither cell exists, for the nearest and for the
bilinear query, also through `getRasterDataFromSource` with micro-degree coordinates. -/
theorem inclusive_edge_indexes_past_the_grid :
    RasterSource.construct grid2x2 0 2 0 2 = .ok source2x2 ∧
    ¬ source2x2.outside 2 1 ∧ ¬ source2x2.outside 1 0 ∧
    (source2x2.getRasterData 2 1).reads = [(1, 2)] ∧
    ¬ cellExists source2x2.raster_data (1, 2) ∧
    (source2x2.getRasterData 2 1).result = .undefined ∧
    (source2x2.getRasterData 1 0).reads = [(2, 1)] ∧
    ¬ cellExists source2x2.raster_data (2, 1) ∧
    (source2x2.getRasterData 1 0).result = .undefined ∧
    (source2x2.getRasterInterpolate 2 1).reads = [(1, 2), (1, 2), (1, 2), (1, 2)] ∧
    (source2x2.getRasterInterpolate 2 1).result = .undefined ∧
    (source2x2.getRasterInterpolate 1 0).reads = [(2, 1), (2, 1), (2, 1), (2, 1)] ∧
    (source2x2.getRasterInterpolate 1 0).result = .undefined ∧
    (loadRasterSource fs2x2 Registry.empty "grid.asc" 0 2 0 2).registry = registry2x2 ∧
    getRasterDataFromSource registry2x2 0 2000000 1000000 =
      { reads := [(1, 2)], result := .undefined } := by
  decide!

/-- C2. A point outside the inclusive bounds gets `has_data = false` from the nearest and
from the bilinear query, the datum is left unset, and no cell of the grid is indexed. -/
theorem outside_bounds_has_no_data (s : RasterSource) (lon lat : ℚ)
    (h : lon < s.xmin ∨ lon > s.xmax ∨ lat < s.ymin ∨ lat > s.ymax) :
    (s.getRasterData lon lat).result = .ok { has_data := false, datum := none } ∧
    (s.getRasterData lon lat).reads = [] ∧
    (s.getRasterInterpolate lon lat).result = .ok { has_data := false, datum := none } ∧
    (s.getRasterInterpolate lon lat).reads = [] := by
  have ho : s.outside lon lat := h
  simp [RasterSource.getRasterData, RasterSource.getRasterInterpolate,
    RasterSource.getRasterDataIn, RasterSource.getRasterInterpolateIn, ho, RasterDatum.ofBool]

/-- C2 at the source `source2x2` and the point `(3, 1)`, east of `xmax = 2`. -/
theorem outside_bounds_has_no_data_witness :
    ((3 : ℚ) < source2x2.xmin ∨ (3 : ℚ) > source2x2.xmax ∨
      (1 : ℚ) < source2x2.ymin ∨ (1 : ℚ) > source2x2.ymax) ∧
    ((source2x2.getRasterData 3 1).result = .ok { has_data := false, datum := none } ∧
    (source2x2.getRasterData 3 1).reads = [] ∧
    (source2x2.getRasterInterpolate 3 1).result = .ok { has_data := false, datum := none } ∧
    (source2x2.getRasterInterpolate 3 1).reads = []) :=
  ⟨by norm_num [source2x2],
   outside_bounds_has_no_data source2x2 3 1 (by norm_num [source2x2])⟩

/-- C3 (evaluation of the code at the failing input). At `(0.25, 1.75)` in `source2x2` both
fractional indices are 0.25, which does not exceed `step / 2 = 0.5`, so the rule of the
specification picks column `ceil 0.25 = 1` and row 1.  The code has already truncated the
index to `unsigned` when it rounds and reads row 0, column 0. -/
theorem nearest_reads_the_truncated_index :
    ¬ source2x2.outside (1 / 4) (7 / 4) ∧
    source2x2.fx (1 / 4) = 1 / 4 ∧ source2x2.fy (7 / 4) = 1 / 4 ∧
    specNearestIndex (source2x2.fx (1 / 4)) source2x2.xstep = 1 ∧
    specNearestIndex (source2x2.fy (7 / 4)) source2x2.ystep = 1 ∧
    (source2x2.getRasterData (1 / 4) (7 / 4)).reads = [(0, 0)] ∧
    getRasterDataFromSource registry2x2 0 250000 1750000 =
      { reads := [(0, 0)], result := .ok { has_data := true, datum := some 0 } } := by
  decide!

/-- C4 (evaluation of the code at the failing input). At `(0.5, 1.5)` in `source2x2` both
fractional indices are 0.5, so the formula of the specification weighs the four cells of the
grid by a quarter each and yields `16 / 4 = 4`.  The code takes floor and ceiling of the
already truncated indices: all four corners are cell `(0, 0)` and it returns 0.  With
`xmin = 1` the weight `x` comes out as `fx - l + 2 * xmin / xstep = 2.5` instead of 0.5. -/
theorem interpolate_reads_one_cell_four_times :
    ¬ source2x2.outside (1 / 2) (3 / 2) ∧
    source2x2.fx (1 / 2) = 1 / 2 ∧ source2x2.fy (3 / 2) = 1 / 2 ∧
    (specBilinear source2x2 (1 / 2) (3 / 2)).bind toShort = .ok 4 ∧
    source2x2.getRasterInterpolate (1 / 2) (3 / 2) =
      { reads := [(0, 0), (0, 0), (0, 0), (0, 0)],
        result := .ok { has_data := true, datum := some 0 } } ∧
    getRasterInterpolateFromSource registry2x2 0 500000 1500000 =
      { reads := [(0, 0), (0, 0), (0, 0), (0, 0)],
        result := .ok { has_data := true, datum := some 0 } } ∧
    ¬ shifted2x2.outside (3 / 2) (3 / 2) ∧
    shifted2x2.fx (3 / 2) - (⌊shifted2x2.fx (3 / 2)⌋ : ℚ) = 1 / 2 ∧
    shifted2x2.corners (3 / 2) (3 / 2) =
      .ok { top := 0, bottom := 0, left := 0, right := 0, x := 5 / 2, y := 1 / 2 } ∧
    (specBilinear shifted2x2 (3 / 2) (3 / 2)).bind toShort = .ok 4 ∧
    (shifted2x2.getRasterInterpolate (3 / 2) (3 / 2)).result =
      .ok { has_data := true, datum := some 0 } := by
  decide!

/-! ## The registry -/

/-- A call on a registered path returns the registered id and leaves the registry alone,
whatever the arithmetic, the file system and the bounds. -/
theorem load_registered (A : Arithmetic) (fs : FileSystem) (reg : Registry)
    (source_path : String) (id : Int) (xmin xmax ymin ymax : ℚ)
    (h : reg.find source_path = some id) :
    loadRasterSourceIn A fs reg source_path xmin xmax ymin ymax =
      { result := .ok id, registry := reg } := by
  simp [loadRasterSourceIn, h]

/-- A call on an unregistered path from whose rows the constructor builds a source appends
that source and registers the path under the previous length. -/
theorem load_new (A : Arithmetic) (fs : FileSystem) (reg : Registry) (source_path : String)
    (rasterData : List (List Int)) (source : RasterSource) (xmin xmax ymin ymax : ℚ)
    (hnew : reg.find source_path = none) (hfile : fs source_path = some rasterData)
    (hcons : RasterSource.constructIn A rasterData xmin xmax ymin ymax = .ok source) :
    loadRasterSourceIn A fs reg source_path xmin xmax ymin ymax =
      { result := .ok reg.LoadedSources.length,
        registry :=
          { LoadedSources := reg.LoadedSources ++ [source],
            LoadedSourcePaths := (source_path, (reg.LoadedSources.length : Int)) ::
              reg.LoadedSourcePaths } } := by
  have hfind : reg.LoadedSourcePaths.lookup source_path = none := hnew
  simp only [loadRasterSourceIn, hnew, hfile, hcons, emplace, hfind]

/-- Whenever a call returns an id, the next call with that path returns the same id and
changes nothing, for every file system and all bounds of either call. -/
theorem second_call_repeats_first (A : Arithmetic) (fs fs2 : FileSystem) (reg : Registry)
    (source_path : String) (xmin xmax ymin ymax xmin2 xmax2 ymin2 ymax2 : ℚ) (id : Int)
    (hfirst : (loadRasterSourceIn A fs reg source_path xmin xmax ymin ymax).result = .ok id) :
    loadRasterSourceIn A fs2
        (loadRasterSourceIn A fs reg source_path xmin xmax ymin ymax).registry
        source_path xmin2 xmax2 ymin2 ymax2 =
      { result := .ok id,
        registry := (loadRasterSourceIn A fs reg source_path xmin xmax ymin ymax).registry } := by
  apply load_registered
  cases hreg : reg.find source_path with
  | some id0 =>
    rw [load_registered A fs reg source_path id0 xmin xmax ymin ymax hreg] at hfirst ⊢
    simp only [Outcome.ok.injEq] at hfirst
    rw [← hfirst]
    exact hreg
  | none =>
    have hfind : reg.LoadedSourcePaths.lookup source_path = none := hreg
    cases hfile : fs source_path with
    | none => simp [loadRasterSourceIn, hreg, hfile] at hfirst
    | some rasterData =>
      cases hcons : RasterSource.constructIn A rasterData xmin xmax ymin ymax with
      | ok source =>
        simp only [loadRasterSourceIn, hreg, hfile, hcons, Outcome.ok.injEq] at hfirst ⊢
        simp [Registry.find, emplace, hfind, List.lookup, hfirst]
      | exception w => simp [loadRasterSourceIn, hreg, hfile, hcons] at hfirst
      | assertion => simp [loadRasterSourceIn, hreg, hfile, hcons] at hfirst
      | undefined => simp [loadRasterSourceIn, hreg, hfile, hcons] at hfirst

/-- C6. Let the file at `source_path` hold a grid from which the constructor, with the bounds
of the first call, builds a source.  Then the first call returns an id and a second call
with that path, with any bounds and any file system, returns the same id and leaves the
registry as the first call left it.  If the path was not registered, the first call returns
the previous length of `LoadedSources`, appends exactly one source and registers the path
under that id.  A call on a registered path returns the registered id and the unchanged
registry for every file system and all bounds, so no file is read.  From the empty registry
both calls return 0 and `LoadedSources` has length 1. -/
theorem loadRasterSource_twice_same_id (fs fs2 : FileSystem) (reg : Registry)
    (source_path : String) (rasterData : List (List Int)) (source : RasterSource)
    (xmin xmax ymin ymax xmin2 xmax2 ymin2 ymax2 : ℚ)
    (hfile : fs source_path = some rasterData)
    (hcons : RasterSource.construct rasterData xmin xmax ymin ymax = .ok source) :
    (∃ id : Int,
      (loadRasterSource fs reg source_path xmin xmax ymin ymax).result = .ok id ∧
      (loadRasterSource fs2 (loadRasterSource fs reg source_path xmin xmax ymin ymax).registry
        source_path xmin2 xmax2 ymin2 ymax2).result = .ok id) ∧
    (loadRasterSource fs2 (loadRasterSource fs reg source_path xmin xmax ymin ymax).registry
        source_path xmin2 xmax2 ymin2 ymax2).registry =
      (loadRasterSource fs reg source_path xmin xmax ymin ymax).registry ∧
    (reg.find source_path = none →
      (loadRasterSource fs reg source_path xmin xmax ymin ymax).result =
        .ok reg.LoadedSources.length ∧
      (loadRasterSource fs reg source_path xmin xmax ymin ymax).registry.LoadedSources =
        reg.LoadedSources ++ [source] ∧
      (loadRasterSource fs reg source_path xmin xmax ymin ymax).registry.find source_path =
        some (reg.LoadedSources.length : Int)) ∧
    (∀ id : Int, reg.find source_path = some id →
      loadRasterSource fs2 reg source_path xmin2 xmax2 ymin2 ymax2 =
        { result := .ok id, registry := reg }) ∧
    (reg = Registry.empty →
      (loadRasterSource fs reg source_path xmin xmax ymin ymax).result = .ok 0 ∧
      (loadRasterSource fs2 (loadRasterSource fs reg source_path xmin xmax ymin ymax).registry
        source_path xmin2 xmax2 ymin2 ymax2).result = .ok 0 ∧
      (loadRasterSource fs2 (loadRasterSource fs reg source_path xmin xmax ymin ymax).registry
        source_path xmin2 xmax2 ymin2 ymax2).registry.LoadedSources.length = 1) := by
  unfold RasterSource.construct at hcons
  unfold loadRasterSource
  have hnewcase : reg.find source_path = none →
      loadRasterSourceIn ieee fs reg source_path xmin xmax ymin ymax = _ :=
    fun hnew => load_new ieee fs reg source_path rasterData source xmin xmax ymin ymax hnew
      hfile hcons
  have hfound : ∀ (r : Registry) (id : Int), r.LoadedSourcePaths.lookup source_path = some id →
      loadRasterSourceIn ieee fs2 r source_path xmin2 xmax2 ymin2 ymax2 =
        { result := .ok id, registry := r } :=
    fun r id h => load_registered ieee fs2 r source_path id xmin2 xmax2 ymin2 ymax2 h
  refine ⟨?_, ?_, ?_, ?_, ?_⟩
  · cases hreg : reg.find source_path with
    | some id =>
      refine ⟨id, ?_, ?_⟩
      · rw [load_registered ieee fs reg source_path id xmin xmax ymin ymax hreg]
      · rw [load_registered ieee fs reg source_path id xmin xmax ymin ymax hreg]
        rw [hfound reg id hreg]
    | none =>
      refine ⟨reg.LoadedSources.length, ?_, ?_⟩
      · rw [hnewcase hreg]
      · rw [hnewcase hreg, hfound _ reg.LoadedSources.length (by simp [List.lookup])]
  · cases hreg : reg.find source_path with
    | some id =>
      rw [load_registered ieee fs reg source_path id xmin xmax ymin ymax hreg,
        hfound reg id hreg]
    | none =>
      rw [hnewcase hreg, hfound _ reg.LoadedSources.length (by simp [List.lookup])]
  · intro hreg
    rw [hnewcase hreg]
    exact ⟨rfl, rfl, by simp [Registry.find, List.lookup]⟩
  · intro id hreg
    exact hfound reg id hreg
  · intro hempty
    subst hempty
    have hreg : Registry.empty.find source_path = none := rfl
    rw [hnewcase hreg,
      hfound _ (Registry.empty.LoadedSources.length : Int) (by simp [List.lookup])]
    simp [Registry.empty]

/-- C6 at the empty registry and the file `grid.asc` of `fs2x2`, loaded with bounds
`(0, 2, 0, 2)` and loaded again with bounds `(0, 1, 0, 1)` when the file is gone: both calls
return 0 and one source is loaded. -/
theorem loadRasterSource_twice_same_id_witness :
    (fs2x2 "grid.asc" = some grid2x2 ∧
      RasterSource.construct grid2x2 0 2 0 2 = .ok source2x2) ∧
    ((loadRasterSource fs2x2 Registry.empty "grid.asc" 0 2 0 2).result = .ok 0 ∧
      (loadRasterSource (fun _ => none)
        (loadRasterSource fs2x2 Registry.empty "grid.asc" 0 2 0 2).registry
        "grid.asc" 0 1 0 1).result = .ok 0 ∧
      (loadRasterSource (fun _ => none)
        (loadRasterSource fs2x2 Registry.empty "grid.asc" 0 2 0 2).registry
        "grid.asc" 0 1 0 1).registry.LoadedSources.length = 1) :=
  ⟨⟨by decide, by decide!⟩,
   (loadRasterSource_twice_same_id fs2x2 (fun _ => none) Registry.empty "grid.asc" grid2x2
      source2x2 0 2 0 2 0 1 0 1 (by decide) (by decide!)).2.2.2.2 rfl⟩

/-- C8. A call on a path that is neither registered nor present on disk throws
`osrm::exception` and leaves `LoadedSources` and `LoadedSourcePaths` as they were. -/
theorem loadRasterSource_no_such_path (fs : FileSystem) (reg : Registry)
    (source_path : String) (xmin xmax ymin ymax : ℚ)
    (hnew : reg.find source_path = none) (hfile : fs source_path = none) :
    (loadRasterSource fs reg source_path xmin xmax ymin ymax).result =
      .exception "error reading: no such path" ∧
    (loadRasterSource fs reg source_path xmin xmax ymin ymax).registry.LoadedSources =
      reg.LoadedSources ∧
    (loadRasterSource fs reg source_path xmin xmax ymin ymax).registry.LoadedSourcePaths =
      reg.LoadedSourcePaths := by
  have hcall : loadRasterSource fs reg source_path xmin xmax ymin ymax =
      { result := .exception "error reading: no such path", registry := reg } := by
    unfold loadRasterSource loadRasterSourceIn
    rw [hnew]
    simp only [hfile]
  rw [hcall]
  exact ⟨rfl, rfl, rfl⟩

/-- C8 at the registry that holds `grid.asc` and the absent file `nonexistent.asc`, as in the
unit test. -/
theorem loadRasterSource_no_such_path_witness :
    (registry2x2.find "nonexistent.asc" = none ∧ fs2x2 "nonexistent.asc" = none) ∧
    ((loadRasterSource fs2x2 registry2x2 "nonexistent.asc" 0 (1 / 10) 0 (1 / 10)).result =
      .exception "error reading: no such path" ∧
    (loadRasterSource fs2x2 registry2x2 "nonexistent.asc" 0 (1 / 10) 0
      (1 / 10)).registry.LoadedSources = registry2x2.LoadedSources ∧
    (loadRasterSource fs2x2 registry2x2 "nonexistent.asc" 0 (1 / 10) 0
      (1 / 10)).registry.LoadedSourcePaths = registry2x2.LoadedSourcePaths) :=
  ⟨⟨by decide, by decide⟩,
   loadRasterSource_no_such_path fs2x2 registry2x2 "nonexistent.asc" 0 (1 / 10) 0 (1 / 10)
     (by decide) (by decide)⟩

/-- The constructor never throws: it has no `osrm::exception` to raise. -/
theorem construct_never_throws (A : Arithmetic) (rasterData : List (List Int))
    (xmin xmax ymin ymax : ℚ) (what : String) :
    RasterSource.constructIn A rasterData xmin xmax ymin ymax ≠ .exception what := by
  cases rasterData with
  | nil => simp [RasterSource.constructIn]
  | cons row0 rows =>
    simp only [RasterSource.constructIn, calcSizeIn]
    split_ifs <;> simp only [Outcome.bind] <;> (try split_ifs) <;> simp

/-- Once the file exists, `loadRasterSource` throws nothing, whatever the rows are: there is
no format check among its statements. -/
theorem existing_file_never_throws (fs : FileSystem) (reg : Registry) (source_path : String)
    (rasterData : List (List Int)) (xmin xmax ymin ymax : ℚ) (what : String)
    (hfile : fs source_path = some rasterData) :
    (loadRasterSource fs reg source_path xmin xmax ymin ymax).result ≠ .exception what := by
  unfold loadRasterSource
  cases hreg : reg.find source_path with
  | some id => simp [loadRasterSourceIn, hreg]
  | none =>
    have hc := construct_never_throws ieee rasterData xmin xmax ymin ymax
    cases hcons : RasterSource.constructIn ieee rasterData xmin xmax ymin ymax with
    | ok source => simp [loadRasterSourceIn, hreg, hfile, hcons]
    | exception w => exact absurd hcons (hc w)
    | assertion => simp [loadRasterSourceIn, hreg, hfile, hcons]
    | undefined => simp [loadRasterSourceIn, hreg, hfile, hcons]

/-- C9 (counterexample). The file `ragged.asc` has a line of two integers and a line of one.
Loading it into the empty registry with bounds `(0, 2, 0, 2)` does not fail: it returns id 0,
registers the path and appends a source whose rows have lengths 2 and 1. -/
theorem ragged_grid_is_loaded :
    fsRagged "ragged.asc" = some [[1, 2], [3]] ∧
    loadRasterSource fsRagged Registry.empty "ragged.asc" 0 2 0 2 =
      { result := .ok 0,
        registry :=
          { LoadedSources :=
              [{ xstep := 1, ystep := 1, raster_data := [[1, 2], [3]],
                 xmin := 0, xmax := 2, ymin := 0, ymax := 2 }],
            LoadedSourcePaths := [("ragged.asc", 0)] } } ∧
    ¬ ((∃ what : String,
          (loadRasterSource fsRagged Registry.empty "ragged.asc" 0 2 0 2).result =
            .exception what) ∧
        (loadRasterSource fsRagged Registry.empty "ragged.asc" 0 2 0 2).registry =
          Registry.empty) := by
  have h : loadRasterSource fsRagged Registry.empty "ragged.asc" 0 2 0 2 =
      { result := .ok 0,
        registry :=
          { LoadedSources :=
              [{ xstep := 1, ystep := 1, raster_data := [[1, 2], [3]],
                 xmin := 0, xmax := 2, ymin := 0, ymax := 2 }],
            LoadedSourcePaths := [("ragged.asc", 0)] } } := by decide!
  refine ⟨by decide, h, ?_⟩
  rw [h]
  simp

/-- C9 (amended). For an existing file that is not yet registered and from whose rows the
constructor builds a source with the given bounds, the call raises no format error: it
returns the previous length of `LoadedSources` as the new id, registers the path under it,
and appends that source.  The source holds the rows exactly as parsed, of equal length or
not; its `xstep` is what `calcSize` returns for the length of the first row alone, and its
`ystep` what `calcSize` returns for the number of rows. -/
theorem loadRasterSource_keeps_rows_as_parsed (fs : FileSystem) (reg : Registry)
    (source_path : String) (row0 : List Int) (rows : List (List Int)) (source : RasterSource)
    (xmin xmax ymin ymax : ℚ)
    (hnew : reg.find source_path = none) (hfile : fs source_path = some (row0 :: rows))
    (hcons : RasterSource.construct (row0 :: rows) xmin xmax ymin ymax = .ok source) :
    (loadRasterSource fs reg source_path xmin xmax ymin ymax).result =
      .ok reg.LoadedSources.length ∧
    (loadRasterSource fs reg source_path xmin xmax ymin ymax).registry.LoadedSources =
      reg.LoadedSources ++ [source] ∧
    (loadRasterSource fs reg source_path xmin xmax ymin ymax).registry.LoadedSourcePaths =
      (source_path, (reg.LoadedSources.length : Int)) :: reg.LoadedSourcePaths ∧
    source.raster_data = row0 :: rows ∧
    calcSize xmin xmax row0.length = .ok source.xstep ∧
    calcSize ymin ymax (rows.length + 1) = .ok source.ystep := by
  unfold RasterSource.construct at hcons
  obtain ⟨⟨r0, rs, hshape, -, hxstep⟩, hystep, -, -, hdata, -⟩ :=
    constructIn_ok ieee (row0 :: rows) xmin xmax ymin ymax source hcons
  obtain ⟨h0, -⟩ := List.cons.inj hshape
  subst h0
  unfold loadRasterSource calcSize
  rw [load_new ieee fs reg source_path (row0 :: rows) source xmin xmax ymin ymax hnew hfile
    hcons]
  exact ⟨rfl, rfl, rfl, hdata, hxstep, hystep⟩

/-- C9 (amended) at the ragged file and the registry that already holds `grid.asc`: the new
id is 1 and the ragged rows are appended as they are, with steps 1 and 2. -/
theorem loadRasterSource_keeps_rows_as_parsed_witness :
    (registry2x2.find "ragged.asc" = none ∧ fsRagged "ragged.asc" = some ([1, 2] :: [[3]]) ∧
      RasterSource.construct ([1, 2] :: [[3]]) 0 2 0 4 = .ok raggedSource) ∧
    ((loadRasterSource fsRagged registry2x2 "ragged.asc" 0 2 0 4).result = .ok 1 ∧
    (loadRasterSource fsRagged registry2x2 "ragged.asc" 0 2 0 4).registry.LoadedSources =
      registry2x2.LoadedSources ++ [raggedSource] ∧
    (loadRasterSource fsRagged registry2x2 "ragged.asc" 0 2 0 4).registry.LoadedSourcePaths =
      ("ragged.asc", 1) :: registry2x2.LoadedSourcePaths ∧
    raggedSource.raster_data = [1, 2] :: [[3]]) :=
  ⟨⟨by decide, by decide, by decide!⟩,
   ⟨(loadRasterSource_keeps_rows_as_parsed fsRagged registry2x2 "ragged.asc" [1, 2] [[3]]
      raggedSource 0 2 0 4 (by decide) (by decide) (by decide!)).1,
    (loadRasterSource_keeps_rows_as_parsed fsRagged registry2x2 "ragged.asc" [1, 2] [[3]]
      raggedSource 0 2 0 4 (by decide) (by decide) (by decide!)).2.1,
    (loadRasterSource_keeps_rows_as_parsed fsRagged registry2x2 "ragged.asc" [1, 2] [[3]]
      raggedSource 0 2 0 4 (by decide) (by decide) (by decide!)).2.2.1,
    (loadRasterSource_keeps_rows_as_parsed fsRagged registry2x2 "ragged.asc" [1, 2] [[3]]
      raggedSource 0 2 0 4 (by decide) (by decide) (by decide!)).2.2.2.1⟩⟩

/-- For an id that is an index of `LoadedSources` the two lookup functions pass the guard
and hand the point, converted to `float` and divided by the coordinate precision, to the
members of that source. -/
theorem from_source_registered (reg : Registry) (source_id : Nat) (found : RasterSource)
    (lon lat : Int) (h : reg.LoadedSources[source_id]? = some found) :
    getRasterDataFromSource reg source_id lon lat =
      found.queryAt found.getRasterData (coordinateIn ieee lon) (coordinateIn ieee lat) ∧
    getRasterInterpolateFromSource reg source_id lon lat =
      found.queryAt found.getRasterInterpolate (coordinateIn ieee lon)
        (coordinateIn ieee lat) := by
  have hlt : source_id < reg.LoadedSources.length := by
    by_contra hge
    rw [List.getElem?_eq_none (not_lt.mp hge)] at h
    cases h
  have hguard : ¬ noSuchLoadedSource reg source_id := by
    unfold noSuchLoadedSource
    have := Nat.mod_le (source_id + 1) 4294967296
    omega
  unfold getRasterDataFromSource getRasterInterpolateFromSource getRasterDataFromSourceIn
    getRasterInterpolateFromSourceIn
  rw [if_neg hguard, if_neg hguard, h]
  exact ⟨rfl, rfl⟩

/-- Below the largest 32-bit value the guard of the lookup functions is exact: it fires
exactly for the ids that are no index of `LoadedSources`. -/
theorem guard_exact_below_wrap (reg : Registry) (source_id : Nat)
    (h : source_id < 4294967295) :
    noSuchLoadedSource reg source_id ↔ reg.LoadedSources.length ≤ source_id := by
  unfold noSuchLoadedSource
  rw [Nat.mod_eq_of_lt (by omega)]
  omega

/-- C7 (evaluation of the code at the failing input). With one source loaded, the id
`4294967295` is no index of `LoadedSources`, yet `source_id + 1` wraps to 0, the guard
`LoadedSources.size() < source_id + 1` does not fire and both functions go on to index
`LoadedSources[4294967295]`.  The id 1 is turned away by the exception, as in the unit
test. -/
theorem largest_source_id_passes_the_guard :
    (4294967295 : Nat) < 4294967296 ∧
    registry2x2.LoadedSources.length ≤ 4294967295 ∧
    ¬ noSuchLoadedSource registry2x2 4294967295 ∧
    registry2x2.LoadedSources[4294967295]? = none ∧
    getRasterDataFromSource registry2x2 4294967295 20000 20000 =
      { reads := [], result := .undefined } ∧
    getRasterInterpolateFromSource registry2x2 4294967295 20000 20000 =
      { reads := [], result := .undefined } ∧
    getRasterDataFromSource registry2x2 1 20000 20000 =
      { reads := [], result := .exception "error reading: no such loaded source" } := by
  decide!

/-! ## The parser driver -/

/-- One round of the worker body adds to the staged nodes and ways what `nodeCall` and
`wayCall` say, and never touches the staged restrictions. -/
theorem forward_parseEntity {E N W R : Type} (env : ScriptingEnvironment E N W)
    (elements : List E) (st : Staging N W R) (x : Nat) :
    (parseEntity env elements st x).resulting_nodes.map
        (fun r => (Call.ProcessNode r.1 r.2 : Call N W R)) =
      st.resulting_nodes.map (fun r => Call.ProcessNode r.1 r.2) ++
        (nodeCall R env elements x).toList ∧
    (parseEntity env elements st x).resulting_ways.map
        (fun r => (Call.ProcessWay r.1 r.2 : Call N W R)) =
      st.resulting_ways.map (fun r => Call.ProcessWay r.1 r.2) ++
        (wayCall R env elements x).toList ∧
    (parseEntity env elements st x).resulting_restrictions = st.resulting_restrictions := by
  unfold parseEntity nodeCall wayCall
  cases hx : elements[x]? with
  | none => simp
  | some entity =>
    cases ht : env.type entity <;> simp [ht]

/-- The staged vectors after the fan-out, by induction on the schedule. -/
theorem forward_parallel_for {E N W R : Type} (env : ScriptingEnvironment E N W)
    (elements : List E) (schedule : List Nat) (st : Staging N W R) :
    (parallel_for env elements schedule st).resulting_nodes.map
        (fun r => (Call.ProcessNode r.1 r.2 : Call N W R)) =
      st.resulting_nodes.map (fun r => Call.ProcessNode r.1 r.2) ++
        schedule.filterMap (nodeCall R env elements) ∧
    (parallel_for env elements schedule st).resulting_ways.map
        (fun r => (Call.ProcessWay r.1 r.2 : Call N W R)) =
      st.resulting_ways.map (fun r => Call.ProcessWay r.1 r.2) ++
        schedule.filterMap (wayCall R env elements) ∧
    (parallel_for env elements schedule st).resulting_restrictions =
      st.resulting_restrictions := by
  induction schedule generalizing st with
  | nil => simp [parallel_for]
  | cons x xs ih =>
    have hstep := forward_parseEntity env elements st x
    have hrest := ih (parseEntity env elements st x)
    simp only [parallel_for, List.foldl_cons] at hrest ⊢
    refine ⟨?_, ?_, ?_⟩
    · rw [hrest.1, hstep.1, List.append_assoc]
      congr 1
      cases h : nodeCall R env elements x <;> simp [List.filterMap_cons, h]
    · rw [hrest.2.1, hstep.2.1, List.append_assoc]
      congr 1
      cases h : wayCall R env elements x <;> simp [List.filterMap_cons, h]
    · rw [hrest.2.2, hstep.2.2]

/-- The calls of one buffer: the node calls in schedule order, then the way calls in
schedule order, and nothing else. -/
theorem processBuffer_eq {E N W R : Type} (env : ScriptingEnvironment E N W)
    (elements : List E) (schedule : List Nat) (st : Staging N W R) :
    (processBuffer env elements schedule st).1 =
      schedule.filterMap (nodeCall R env elements) ++
        schedule.filterMap (wayCall R env elements) := by
  have h := forward_parallel_for env elements schedule st.clear
  simp only [processBuffer, forward, h.1, h.2.1, h.2.2]
  simp [Staging.clear]

/-- The indices of the node calls of a schedule are the scheduled indices that hold a node,
in schedule order. -/
theorem index_nodeCall {E N W : Type} (R : Type) (env : ScriptingEnvironment E N W)
    (elements : List E) (schedule : List Nat) :
    (schedule.filterMap (nodeCall R env elements)).filterMap Call.index =
      schedule.filter (fun x => (nodeCall R env elements x).isSome) := by
  induction schedule with
  | nil => rfl
  | cons x xs ih =>
    cases h : nodeCall R env elements x with
    | none => simp [List.filterMap_cons, List.filter_cons, h, ih]
    | some c =>
      have hc : c.index = some x := by
        unfold nodeCall at h
        split at h
        · cases h
        · split at h
          · cases h; rfl
          · cases h
      simp [List.filterMap_cons, List.filter_cons, h, hc, ih]

/-- The indices of the way calls of a schedule are the scheduled indices that hold a way, in
schedule order. -/
theorem index_wayCall {E N W : Type} (R : Type) (env : ScriptingEnvironment E N W)
    (elements : List E) (schedule : List Nat) :
    (schedule.filterMap (wayCall R env elements)).filterMap Call.index =
      schedule.filter (fun x => (wayCall R env elements x).isSome) := by
  induction schedule with
  | nil => rfl
  | cons x xs ih =>
    cases h : wayCall R env elements x with
    | none => simp [List.filterMap_cons, List.filter_cons, h, ih]
    | some c =>
      have hc : c.index = some x := by
        unfold wayCall at h
        split at h
        · cases h
        · split at h
          · cases h; rfl
          · cases h
      simp [List.filterMap_cons, List.filter_cons, h, hc, ih]

/-- C5 (counterexample). In the buffer `[way, node]` handled in ascending order, the node at
index 1 is forwarded before the way at index 0, so the calls are not in ascending index.  In
the buffer `[node, node]` the two append orders give two different call sequences. -/
theorem forwarding_is_by_kind_not_by_index :
    (processBuffer tagEnv [(.way, 10), (.node, 20)] (sequential 2) firstBuffer).1 =
      [.ProcessNode 1 20, .ProcessWay 0 10] ∧
    ¬ ascendingIndex
      (processBuffer tagEnv [(.way, 10), (.node, 20)] (sequential 2) firstBuffer).1 ∧
    (processBuffer tagEnv [(.node, 10), (.node, 20)] [0, 1] firstBuffer).1 =
      [.ProcessNode 0 10, .ProcessNode 1 20] ∧
    (processBuffer tagEnv [(.node, 10), (.node, 20)] [1, 0] firstBuffer).1 =
      [.ProcessNode 1 20, .ProcessNode 0 10] ∧
    (processBuffer tagEnv [(.node, 10), (.node, 20)] [0, 1] firstBuffer).1 ≠
      (processBuffer tagEnv [(.node, 10), (.node, 20)] [1, 0] firstBuffer).1 := by
  decide

/-- C5 (amended). For every buffer and every order in which the workers appended their
results, the merge stage first issues the `ProcessNode` calls of the nodes, in the order
they were appended, and then the `ProcessWay` calls of the ways, in the order they were
appended.  The calls are the same up to order for every append order, and when the appends
came in ascending index order the calls of each kind are in strictly ascending original
element index. -/
theorem forwarding_nodes_then_ways {E N W R : Type} (env : ScriptingEnvironment E N W)
    (elements : List E) (schedule : List Nat) (st : Staging N W R)
    (h : schedule.Perm (List.range elements.length)) :
    (processBuffer env elements schedule st).1 =
      schedule.filterMap (nodeCall R env elements) ++
        schedule.filterMap (wayCall R env elements) ∧
    (processBuffer env elements schedule st).1.Perm
      (processBuffer env elements (sequential elements.length) st).1 ∧
    ascendingIndex ((sequential elements.length).filterMap (nodeCall R env elements)) ∧
    ascendingIndex ((sequential elements.length).filterMap (wayCall R env elements)) := by
  refine ⟨processBuffer_eq env elements schedule st, ?_, ?_, ?_⟩
  · rw [processBuffer_eq, processBuffer_eq]
    exact (h.filterMap _).append (h.filterMap _)
  · unfold ascendingIndex sequential
    rw [index_nodeCall]
    exact (List.pairwise_lt_range _).sublist (List.filter_sublist _)
  · unfold ascendingIndex sequential
    rw [index_wayCall]
    exact (List.pairwise_lt_range _).sublist (List.filter_sublist _)

/-- C5 (amended) at the buffer `[way, node, node]` with the appends in the order 2, 0, 1:
the node calls come first, index 2 before index 1, then the way call. -/
theorem forwarding_nodes_then_ways_witness :
    ([2, 0, 1] : List Nat).Perm
      (List.range ([(.way, 10), (.node, 20), (.node, 30)] : List (item_type × Nat)).length) ∧
    (processBuffer tagEnv [(.way, 10), (.node, 20), (.node, 30)] [2, 0, 1] firstBuffer).1 =
      [.ProcessNode 2 30, .ProcessNode 1 20, .ProcessWay 0 10] :=
  ⟨by decide,
   (forwarding_nodes_then_ways tagEnv [(.way, 10), (.node, 20), (.node, 30)] [2, 0, 1]
     firstBuffer (by decide)).1.trans (by decide)⟩

/-- No buffer, profile or schedule leads to a `ProcessRestriction` call: the vector
`resulting_restrictions` is cleared and never appended to. -/
theorem no_ProcessRestriction {E N W R : Type} (env : ScriptingEnvironment E N W)
    (elements : List E) (schedule : List Nat) (st : Staging N W R) (restriction : Option R) :
    Call.ProcessRestriction restriction ∉ (processBuffer env elements schedule st).1 := by
  rw [processBuffer_eq]
  intro hmem
  rcases List.mem_append.mp hmem with hm | hm
  · obtain ⟨x, _, hx⟩ := List.mem_filterMap.mp hm
    unfold nodeCall at hx
    split at hx
    · cases hx
    · split at hx <;> cases hx
  · obtain ⟨x, _, hx⟩ := List.mem_filterMap.mp hm
    unfold wayCall at hx
    split at hx
    · cases hx
    · split at hx <;> cases hx

/-- C10 (evaluation of the code at the failing input). A buffer that holds one relation,
handled by one worker: the relation is counted, nothing is staged in
`resulting_restrictions`, and the merge stage issues no call at all, so the restriction the
relation stands for never reaches `ProcessRestriction`. -/
theorem relation_is_counted_and_dropped :
    (processBuffer tagEnv [(.relation, 7)] (sequential 1) firstBuffer).2.number_of_relations
      = 1 ∧
    (processBuffer tagEnv [(.relation, 7)] (sequential 1)
      firstBuffer).2.resulting_restrictions = [] ∧
    (processBuffer tagEnv [(.relation, 7)] (sequential 1) firstBuffer).1 = [] := by
  decide

/-! ## The thread pool -/

/-- The cast leaves a value below `2^31` as it is. -/
theorem castToInt_small (u : Nat) (h : u < 2147483648) : castToInt u = u := by
  unfold castToInt
  have hm : u % 4294967296 = u := Nat.mod_eq_of_lt (by omega)
  rw [hm, if_pos h]

/-- When both counts are at least 1 and fit an `int`, the pool size is the clamp of the
specification, the smaller of the two counts. -/
theorem number_of_threads_in_int_range (recommended requested : Nat)
    (hreq : 1 ≤ requested) (hrec : 1 ≤ recommended)
    (hreq2 : requested < 2147483648) (hrec2 : recommended < 2147483648) :
    number_of_threads recommended requested = ((specThreads requested recommended : Nat) : Int) ∧
    specThreads requested recommended = min requested recommended := by
  unfold number_of_threads specThreads
  rw [castToInt_small _ hreq2, castToInt_small _ hrec2]
  omega

/-- For every requested count, the pool size lies between 1 and the concurrency of the
hardware, whenever the latter is at least 1. -/
theorem number_of_threads_bounds (recommended requested : Nat)
    (hrec : 1 ≤ recommended) (hrec2 : recommended < 4294967296) :
    1 ≤ number_of_threads recommended requested ∧
    number_of_threads recommended requested ≤ recommended := by
  unfold number_of_threads castToInt
  have hm : recommended % 4294967296 = recommended := Nat.mod_eq_of_lt hrec2
  rw [hm]
  split_ifs <;> omega

/-- C11 (evaluation of the code at the failing input). On hardware with 8 threads, a request
for `2147483648` threads is a 32-bit value of at least 1 and passes the test on the thread
count.  The clamp of the specification is 8.  The cast to `int` turns the request into
`-2147483648`, the minimum is negative and the pool gets 1 thread; the same happens for
`4294967295`.  A request for 3 threads gets 3. -/
theorem large_request_gets_one_thread :
    ¬ threadsRejected 2147483648 ∧ (2147483648 : Nat) < 4294967296 ∧
    castToInt 2147483648 = -2147483648 ∧
    specThreads 2147483648 8 = 8 ∧ min 2147483648 8 = 8 ∧
    number_of_threads 8 2147483648 = 1 ∧
    number_of_threads 8 4294967295 = 1 ∧
    number_of_threads 8 3 = 3 := by
  decide

/-! ## The bilinear query returns the nearest sample -/

/-- Truncation leaves an integer as it is. -/
theorem truncate_intCast (d : Int) : truncate (d : ℚ) = d := by
  unfold truncate
  split_ifs
  · exact Int.ceil_intCast d
  · exact Int.floor_intCast d

/-- Conversion to `short` of an integer in the 16-bit range. -/
theorem toShort_intCast (d : Int) (h : -32768 ≤ d ∧ d < 32768) : toShort (d : ℚ) = .ok d := by
  unfold toShort
  rw [truncate_intCast, if_pos h]

/-- C12. Let the arithmetic be exact, let the steps be finite and positive, let the point
pass the bounds test, and let the cell at row `floor((ymax - lat) / ystep)` and column
`floor((lon - xmin) / xstep)` exist and hold `d`, where `d` is a 16-bit value and both
indices fit an `int`, as the types of the source have it.  Then the nearest and the bilinear
query both index that cell only and both return `has_data = true` with datum `d`: the four
corners of the bilinear query coincide and the weights add up to 1.  Nothing is asked of
`xmin`. -/
theorem interpolate_equals_nearest (A : Arithmetic) (hA : A.Exact) (s : RasterSource)
    (lon lat xstep ystep : ℚ) (d : Int)
    (hxs : s.xstep = .fin xstep) (hys : s.ystep = .fin ystep)
    (hxpos : 0 < xstep) (hypos : 0 < ystep)
    (hin : ¬ s.outside lon lat)
    (hd : cellAt s.raster_data ⌊(s.ymax - lat) / ystep⌋ ⌊(lon - s.xmin) / xstep⌋ = .ok d)
    (hshort : -32768 ≤ d ∧ d < 32768)
    (hint : (lon - s.xmin) / xstep < 2147483648 ∧ (s.ymax - lat) / ystep < 2147483648) :
    s.getRasterDataIn A lon lat =
      { reads := [(⌊(s.ymax - lat) / ystep⌋, ⌊(lon - s.xmin) / xstep⌋)],
        result := .ok { has_data := true, datum := some d } } ∧
    s.getRasterInterpolateIn A lon lat =
      { reads := [(⌊(s.ymax - lat) / ystep⌋, ⌊(lon - s.xmin) / xstep⌋),
                  (⌊(s.ymax - lat) / ystep⌋, ⌊(lon - s.xmin) / xstep⌋),
                  (⌊(s.ymax - lat) / ystep⌋, ⌊(lon - s.xmin) / xstep⌋),
                  (⌊(s.ymax - lat) / ystep⌋, ⌊(lon - s.xmin) / xstep⌋)],
        result := .ok { has_data := true, datum := some d } } ∧
    (s.getRasterInterpolateIn A lon lat).result = (s.getRasterDataIn A lon lat).result ∧
    (∃ c : Corners, s.cornersIn A lon lat = .ok c ∧ c.top = c.bottom ∧ c.left = c.right ∧
      (1 - c.x) * (1 - c.y) + c.x * (1 - c.y) + (1 - c.x) * c.y + c.x * c.y = 1) := by
  have hnear := nearestCell_eq_floor A hA s lon lat xstep ystep hxs hys hxpos hypos hin
    hint.1 hint.2
  have hcorn := cornerIndices_eq_floor A hA s lon lat xstep ystep hxs hys hxpos hypos hin
    hint.1 hint.2
  have hw := weights_exact A hA s lon lat xstep ystep ⌊(lon - s.xmin) / xstep⌋
    ⌊(s.ymax - lat) / ystep⌋ hxs hys hxpos hypos
  have hN : s.getRasterDataIn A lon lat =
      { reads := [(⌊(s.ymax - lat) / ystep⌋, ⌊(lon - s.xmin) / xstep⌋)],
        result := .ok { has_data := true, datum := some d } } := by
    unfold RasterSource.getRasterDataIn
    rw [if_neg hin, hnear]
    simp only [hd, Outcome.bind, RasterDatum.ofShort]
  have hI : s.getRasterInterpolateIn A lon lat =
      { reads := [(⌊(s.ymax - lat) / ystep⌋, ⌊(lon - s.xmin) / xstep⌋),
                  (⌊(s.ymax - lat) / ystep⌋, ⌊(lon - s.xmin) / xstep⌋),
                  (⌊(s.ymax - lat) / ystep⌋, ⌊(lon - s.xmin) / xstep⌋),
                  (⌊(s.ymax - lat) / ystep⌋, ⌊(lon - s.xmin) / xstep⌋)],
        result := .ok { has_data := true, datum := some d } } := by
    unfold RasterSource.getRasterInterpolateIn
    rw [if_neg hin, hcorn]
    simp only [hd, Outcome.bind]
    rw [hw.1, hw.2, weightedSum_exact A hA]
    simp only [Fp.toShort, toShort_intCast d hshort, RasterDatum.ofShort]
  refine ⟨hN, hI, by rw [hN, hI], ?_⟩
  unfold RasterSource.cornersIn
  rw [hcorn]
  simp only [Outcome.bind]
  rw [hw.1, hw.2]
  exact ⟨_, rfl, rfl, rfl, by ring⟩

/-- C12 in the arithmetic of the real numbers, at the source `shifted2x2`, where `xmin = 1`,
and the point `(2.5, 0.5)`: both fractional indices are 1.5, the cell in row 1 and column 1
holds 16, and both queries return 16. -/
theorem interpolate_equals_nearest_witness :
    (exactArithmetic.Exact ∧
      shifted2x2.xstep = .fin 1 ∧ shifted2x2.ystep = .fin 1 ∧ (0 : ℚ) < 1 ∧ (0 : ℚ) < 1 ∧
      ¬ shifted2x2.outside (5 / 2) (1 / 2) ∧
      cellAt shifted2x2.raster_data ⌊(shifted2x2.ymax - 1 / 2) / 1⌋
        ⌊(5 / 2 - shifted2x2.xmin) / 1⌋ = .ok 16 ∧
      ((-32768 : Int) ≤ 16 ∧ (16 : Int) < 32768) ∧
      ((5 / 2 - shifted2x2.xmin) / 1 < 2147483648 ∧
        (shifted2x2.ymax - 1 / 2) / 1 < 2147483648)) ∧
    ((shifted2x2.getRasterDataIn exactArithmetic (5 / 2) (1 / 2)).result =
        .ok { has_data := true, datum := some 16 } ∧
      (shifted2x2.getRasterInterpolateIn exactArithmetic (5 / 2) (1 / 2)).result =
        .ok { has_data := true, datum := some 16 }) :=
  ⟨⟨exactArithmetic_exact, by decide, by decide, by decide!, by decide!, by decide!,
      by decide!, by decide, by decide!⟩,
   ⟨congrArg Query.result
      (interpolate_equals_nearest exactArithmetic exactArithmetic_exact shifted2x2 (5 / 2)
        (1 / 2) 1 1 16 (by decide) (by decide) (by decide!) (by decide!) (by decide!)
        (by decide!) (by decide) (by decide!)).1,
    congrArg Query.result
      (interpolate_equals_nearest exactArithmetic exactArithmetic_exact shifted2x2 (5 / 2)
        (1 / 2) 1 1 16 (by decide) (by decide) (by decide!) (by decide!) (by decide!)
        (by decide!) (by decide) (by decide!)).2.1⟩⟩

/-- The machine arithmetic does round.  Three columns on `[0, 1]` give the `float` nearest to
a third as `xstep`; a width of `2 ^ -200` gives a step of zero and trips the assertion; a
width of `2 ^ 200` gives an infinite step; and at the micro-degree point
`(1100042, 900379)` of `registry2x2` the bilinear query returns 15 where the nearest query
returns the 16 of the one cell that both index. -/
theorem machine_arithmetic_rounds :
    calcSize 0 1 3 = .ok (.fin (11184811 / 33554432)) ∧
    RasterSource.construct grid2x2 0 (pow2 (-200)) 0 2 = .assertion ∧
    calcSize 0 (pow2 200) 2 = .ok (.inf false) ∧
    getRasterDataFromSource registry2x2 0 1100042 900379 =
      { reads := [(1, 1)], result := .ok { has_data := true, datum := some 16 } } ∧
    getRasterInterpolateFromSource registry2x2 0 1100042 900379 =
      { reads := [(1, 1), (1, 1), (1, 1), (1, 1)],
        result := .ok { has_data := true, datum := some 15 } } := by
  decide!

end Osrm
